import Mathlib

/-!
Verification development for the `Renombrado_xml_pdf_ubigeo` repository
(a Streamlit back-office tool reconciling Peruvian e-invoice XML files with
their PDF renditions and validating a payables spreadsheet).

The Python sources are shallowly embedded as executable Lean definitions:

* `ComercialTools_Streamlit/utils/core.py` — string cleaners, the XML
  metadata extractor `extraer_datos_xml_bytes`, the PDF content test
  `pdf_contiene_datos`, the greedy matcher `emparejar_y_reportar`, the
  suffix reconciler `_best_by_numeric_suffix` and the spreadsheet
  validator `validar_confirming_excel`.
* `ComercialTools_Streamlit/pages/1_Renombrado_XML_PDF.py` — the bounded
  archive expander `colectar_xml_pdf_desde_adjuntos` and its helpers.
* `ComercialTools_Streamlit/pages/2_Validacion_Confirming.py` — the
  namespace-stripping extractor `_extract_xml_meta` with its regex
  fallbacks.

Modelling conventions: Python `bytes` that only matter through their
length become `Nat` sizes; XML bytes become either a parsed element tree
plus the raw decoded text, or a malformed marker plus raw text (mirroring
the only exception point, `ET.fromstring`/`iterparse`); Streamlit widget
calls and Excel writers are abstracted to the data they would render
(warning/error entries keep the offending file name); Python exceptions
that escape a function are modelled with `Except`.  Character classes of
the Python regexes (`[A-Za-z0-9]`, `\d`, `\s`) are ASCII, matching Lean's
`Char.isAlpha`/`Char.isDigit` and the whitespace predicate below.
-/

/-- ASCII whitespace, as stripped by Python `str.strip()` / matched by
`\s` on the inputs occurring here. -/
def isWS (c : Char) : Bool := c == ' ' || c == '\t' || c == '\n' || c == '\r'

/-- `[A-Za-z0-9]` / `[0-9A-Za-z]` character class. -/
def isAlnumA (c : Char) : Bool := c.isAlpha || c.isDigit

/-- Python `str.strip()` on a character list. -/
def stripChars (l : List Char) : List Char :=
  ((l.dropWhile isWS).reverse.dropWhile isWS).reverse

/-- Python `str.strip()`. -/
def pyStrip (s : String) : String := String.mk (stripChars s.data)

/-- Python `re.sub(r'\D', '', s)`: keep only ASCII digits. -/
def digitsOnly (l : List Char) : List Char := l.filter Char.isDigit

/-- Number of occurrences of a character (Python `str.count`). -/
def countChar (c : Char) (l : List Char) : Nat := (l.filter (· == c)).length

/-- Does `needle` occur at the start of `hay`? -/
def beginsWith : List Char → List Char → Bool
  | [], _ => true
  | _ :: _, [] => false
  | a :: as, b :: bs => a == b && beginsWith as bs

/-- Python `needle in hay` substring test. -/
def containsSub (needle : List Char) : List Char → Bool
  | [] => beginsWith needle []
  | c :: rest => beginsWith needle (c :: rest) || containsSub needle rest

/-- Substring containment on `String` (Python `in`). -/
def strContains (needle hay : String) : Bool := containsSub needle.data hay.data

/-- ASCII upper-casing of one character together with folding of the
accented Latin letters produced by `unicodedata.normalize('NFD', ·)`
followed by dropping combining marks — the normalisation used by
`normaliza`/`norm_upper` in the sources, modelled on the Spanish-alphabet
repertoire these files process. -/
def charFold (c : Char) : Char :=
  if c == 'á' || c == 'Á' || c == 'à' || c == 'À' || c == 'ä' || c == 'Ä' || c == 'â' || c == 'Â' then 'A'
  else if c == 'é' || c == 'É' || c == 'è' || c == 'È' || c == 'ë' || c == 'Ë' || c == 'ê' || c == 'Ê' then 'E'
  else if c == 'í' || c == 'Í' || c == 'ì' || c == 'Ì' || c == 'ï' || c == 'Ï' || c == 'î' || c == 'Î' then 'I'
  else if c == 'ó' || c == 'Ó' || c == 'ò' || c == 'Ò' || c == 'ö' || c == 'Ö' || c == 'ô' || c == 'Ô' then 'O'
  else if c == 'ú' || c == 'Ú' || c == 'ù' || c == 'Ù' || c == 'ü' || c == 'Ü' || c == 'û' || c == 'Û' then 'U'
  else if c == 'ñ' || c == 'Ñ' then 'N'
  else c.toUpper

/-- Python `str.upper()` (ASCII model; the uppercase results are only
consumed by exact comparisons against ASCII constants in this code). -/
def upperPy (s : String) : String := String.mk (s.data.map Char.toUpper)

/-- `normaliza` (core.py): `str(s).strip().upper()` then NFD
diacritic-stripping.  A `None` input is propagated by `Option.map` at the
call sites. -/
def normaliza (s : String) : String := String.mk ((stripChars s.data).map charFold)

/-- `limpiar_numero` (core.py) applied to a plain string:
`re.sub(r'\D', '', str(s))`. -/
def limpiar_numero_str (s : String) : String := String.mk (digitsOnly s.data)

/-! ## Suffix reconciler (`_best_by_numeric_suffix` and helpers defined
inside `validar_confirming_excel`, core.py lines 331-368) -/

/-- `_nz` on a string value: `str(s).strip()`. -/
def nzStr (s : String) : String := pyStrip s

/-- Python `s.split('-', 1)`: the part before the first hyphen and, when a
hyphen exists, the part after it. -/
def pySplit1 (l : List Char) : List Char × Option (List Char) :=
  match l.dropWhile (· != '-') with
  | [] => (l.takeWhile (· != '-'), none)
  | _ :: after => (l.takeWhile (· != '-'), some after)

/-- `_split_idfact`: strip, upper-case, split once at the first hyphen;
both components are absent when there is no hyphen. -/
def split_idfact (idf : String) : Option String × Option String :=
  let s := (nzStr idf).data.map Char.toUpper
  match pySplit1 s with
  | (_, none) => (none, none)
  | (a, some b) => (some (String.mk a), some (String.mk b))

/-- The inner loop of `_best_by_numeric_suffix`: length of the longest
common prefix, applied below to reversed digit strings (compare from the
least-significant character, stop at the first mismatch). -/
def commonPrefixLen : List Char → List Char → Nat
  | a :: as, b :: bs => if a == b then commonPrefixLen as bs + 1 else 0
  | _, _ => 0

/-- Common-suffix length of two strings, as computed by the
`for i in range(1, max_len+1)` loop of `_best_by_numeric_suffix`. -/
def commonSuffixLen (a b : List Char) : Nat := commonPrefixLen a.reverse b.reverse

/-- The candidate loop of `_best_by_numeric_suffix`, carrying `best`,
`best_suffix` and `best_num_len` (the latter two start at `-1`). -/
def bestLoop (numX : List Char) : List String → Option String → Int → Int → Option String
  | [], best, _, _ => best
  | cand :: rest, best, bs, bl =>
    match (split_idfact cand).2 with
    | none => bestLoop numX rest best bs bl
    | some cn =>
      if cn == "" then bestLoop numX rest best bs bl
      else
        let common : Int := (commonSuffixLen cn.data numX : Nat)
        if common > bs ∨ (common = bs ∧ (cn.length : Int) > bl) then
          bestLoop numX rest (some cand) common (cn.length : Int)
        else bestLoop numX rest best bs bl

/-- `_best_by_numeric_suffix(numero_excel, candidatos)` (core.py).  The
Python `candidatos` argument is a set; its iteration order is modelled by
the list order of the argument. -/
def best_by_numeric_suffix (numeroExcel : String) (candidatos : List String) : Option String :=
  if candidatos.isEmpty then none
  else bestLoop (nzStr numeroExcel).data candidatos none (-1) (-1)

/-- The (common-suffix length, canonical-number length) key that the loop
maximises lexicographically; skipped candidates (no hyphen / empty number
part) get the initial key `(-1, -1)`. -/
def suffixKey (numX : List Char) (cand : String) : Int × Int :=
  match (split_idfact cand).2 with
  | none => (-1, -1)
  | some cn =>
    if cn == "" then (-1, -1)
    else ((commonSuffixLen cn.data numX : Nat), (cn.length : Int))

/-- Strict lexicographic order on reconciler keys (the loop's replacement
test). -/
def keyLt (p q : Int × Int) : Prop := p.1 < q.1 ∨ (p.1 = q.1 ∧ p.2 < q.2)

/-- A candidate the loop does not skip: it has a hyphen and a non-empty
number part (the claim's "shape SERIES-NUMBER"). -/
def candOk (cand : String) : Prop :=
  (split_idfact cand).2 ≠ none ∧ (split_idfact cand).2 ≠ some ""

/-! ## Spreadsheet validator (`validar_confirming_excel`, core.py lines
250-453)

Cell values reaching the row validators are either a missing value
(`pandas` yields Python `None` via `row.get` on an absent column, and we
fold `NaN` into the same case), a string, or a native date.  `pyStr`
models Python `str(·)` on these values and `nzCell` models the `nz`
helper (`str(s).strip() if s is not None else ""`). -/

inductive Cell where
  | none : Cell
  | str : String → Cell
  | dateVal : String → Cell
deriving Repr, DecidableEq

/-- Python `str(cell)` (`str(None) = "None"`; a date renders as its
`repr` payload). -/
def pyStr : Cell → String
  | Cell.none => "None"
  | Cell.str s => s
  | Cell.dateVal r => r

/-- `nz` (core.py line 267): `str(s).strip() if s is not None else ""`. -/
def nzCell : Cell → String
  | Cell.none => ""
  | c => pyStrip (pyStr c)

/-- `norm_upper` (core.py line 270): `nz(s).upper()` then NFD
diacritic-stripping. -/
def norm_upper (c : Cell) : String := String.mk ((nzCell c).data.map charFold)

/-- `limpiar_numero` (core.py line 28) on a cell value. -/
def limpiar_numero (c : Cell) : String :=
  match c with
  | Cell.none => ""
  | c => limpiar_numero_str (pyStr c)

/-- A spreadsheet row: association list from column name to value.
`rowGet` models `row.get(col)` on a `pandas` row (absent → `None`). -/
abbrev Row := List (String × Cell)

/-- `row.get(col)`. -/
def rowGet (r : Row) (col : String) : Cell :=
  match List.lookup col r with
  | some v => v
  | Option.none => Cell.none

/-- Set (or add) one column of one row. -/
def rowSet (r : Row) (col : String) (v : Cell) : Row :=
  match r with
  | [] => [(col, v)]
  | (c, w) :: rest => if c == col then (col, v) :: rest else (c, w) :: rowSet rest col v

/-- One worksheet: its name, the column labels, and the data rows. -/
structure Sheet where
  name : String
  cols : List String
  rows : List Row

/-- A workbook (`pd.ExcelFile`): its sheets in order. -/
abbrev Workbook := List Sheet

/-- Number of days in a month, with leap years (Python `datetime`
validates real calendar dates). -/
def daysInMonth (y m : Nat) : Nat :=
  if m = 2 then
    if y % 4 = 0 ∧ (y % 100 ≠ 0 ∨ y % 400 = 0) then 29 else 28
  else if m = 4 ∨ m = 6 ∨ m = 9 ∨ m = 11 then 30
  else 31

/-- Does a digit group list denote a valid (y, m, d) calendar date in
`datetime.strptime` (`%Y` is exactly four digits in CPython, `%m`/`%d`
one or two; the day must be a real calendar day and the year
positive)? -/
def ymdValid (ys ms ds : List Char) : Bool :=
  ys.all Char.isDigit && ms.all Char.isDigit && ds.all Char.isDigit &&
  decide (ys.length = 4) &&
  decide (1 ≤ ms.length) && decide (ms.length ≤ 2) &&
  decide (1 ≤ ds.length) && decide (ds.length ≤ 2) &&
  (let y := (String.mk ys).toNat!; let m := (String.mk ms).toNat!; let d := (String.mk ds).toNat!
   decide (1 ≤ y) && decide (y ≤ 9999) && decide (1 ≤ m) && decide (m ≤ 12) &&
   decide (1 ≤ d) && decide (d ≤ daysInMonth y m))

/-- `datetime.strptime(s, fmt)` for the four formats tried by
`validar_fecha`, modelled by splitting at the separator. `yFirst` tells
whether the year group comes first. -/
def strptimeOk (sep : Char) (yFirst : Bool) (s : String) : Bool :=
  match s.data.splitOn sep with
  | [a, b, c] => if yFirst then ymdValid a b c else ymdValid c b a
  | _ => false

/-- `validar_fecha` (core.py line 275): native dates pass; strings must
parse under one of `%Y-%m-%d`, `%d/%m/%Y`, `%d-%m-%Y`, `%Y/%m/%d`;
anything else fails. -/
def validar_fecha (fecha : Cell) : Bool :=
  match fecha with
  | Cell.dateVal _ => true
  | Cell.str s =>
    let t := pyStrip s
    strptimeOk '-' true t || strptimeOk '/' false t || strptimeOk '-' false t || strptimeOk '/' true t
  | Cell.none => false

/-- `validar_ruc` (core.py line 288): `len(limpiar_numero(ruc)) == 11`. -/
def validar_ruc (ruc : Cell) : Bool := (limpiar_numero ruc).length == 11

/-- `validar_razon_social` (core.py line 291): a string, non-empty after
trimming. -/
def validar_razon_social (rs : Cell) : Bool :=
  match rs with
  | Cell.str s => pyStrip s != ""
  | _ => false

/-- `validar_moneda` (core.py line 294): a string whose normalisation is
`PEN` or `USD`. -/
def validar_moneda (moneda : Cell) : Bool :=
  match moneda with
  | Cell.str _ => norm_upper moneda == "PEN" || norm_upper moneda == "USD"
  | _ => false

/-- Is `s` accepted by Python `float(s)`?  Grammar: optional sign, then
either digits with an optional fraction or a leading-dot fraction, with an
optional exponent; or inf/infinity/nan (case-insensitive).  (Digit-group
underscores are not modelled; none of the inputs proved about use them.) -/
def floatBody (l : List Char) : Bool :=
  let intPart := l.takeWhile Char.isDigit
  let rest1 := l.drop intPart.length
  let afterFrac :=
    match rest1 with
    | '.' :: r =>
      let fracPart := r.takeWhile Char.isDigit
      if intPart.isEmpty && fracPart.isEmpty then Option.none
      else some (r.drop fracPart.length)
    | _ => if intPart.isEmpty then Option.none else some rest1
  match afterFrac with
  | Option.none => false
  | some rest2 =>
    match rest2 with
    | [] => true
    | e :: r2 =>
      (e == 'e' || e == 'E') &&
      (let r3 := match r2 with
        | '+' :: t => t
        | '-' :: t => t
        | t => t
       !r3.isEmpty && r3.all Char.isDigit)

/-- Python `float(·)` acceptance on an already-stripped string. -/
def isPyFloat (s : String) : Bool :=
  let l := match s.data with
    | '+' :: t => t
    | '-' :: t => t
    | t => t
  let low := String.mk (l.map Char.toLower)
  low == "inf" || low == "infinity" || low == "nan" || floatBody l

/-- `validar_monto` (core.py line 297):
`float(str(monto).replace(",", "").strip().lstrip("'"))` succeeds. -/
def validar_monto (monto : Cell) : Bool :=
  let s := (pyStr monto).data.filter (· != ',')
  isPyFloat (String.mk ((stripChars s).dropWhile (· == Char.ofNat 39)))

/-- `banco_tipo` (core.py line 303): classify the normalized bank name. -/
def banco_tipo (ctaBanco : Cell) : String :=
  let b := norm_upper ctaBanco
  if b == "BCP" then "BCP"
  else if b == "BBVA" then "BBVA"
  else "OTRO"

/-- The cleaned account string of `validar_cta_bancaria`:
`str(cta).strip().lstrip("'")`. -/
def ctaClean (cta : Cell) : String :=
  String.mk ((stripChars (pyStr cta).data).dropWhile (· == Char.ofNat 39))

/-- Python `str.isdigit()` (ASCII model): non-empty and all digits. -/
def pyIsDigit (s : String) : Bool := !s.data.isEmpty && s.data.all Char.isDigit

/-- `validar_cta_bancaria` (core.py line 309). -/
def validar_cta_bancaria (cta : Cell) (bancoNorm : String) : Bool :=
  if bancoNorm == "OTRO" then true
  else if cta == Cell.none || pyStrip (pyStr cta) == "" then false
  else
    let ctaStr := ctaClean cta
    if !pyIsDigit ctaStr then false
    else if bancoNorm == "BCP" then ctaStr.length == 13 || ctaStr.length == 14
    else if bancoNorm == "BBVA" then ctaStr.length == 18
    else false

/-- `validar_cci` (core.py line 323): `len(limpiar_numero(cci)) == 20`. -/
def validar_cci (cci : Cell) : Bool := (limpiar_numero cci).length == 20

/-- `validar_tipo_cuenta_para_banco` (core.py line 326). -/
def validar_tipo_cuenta_para_banco (tipo : Cell) (bancoNorm : String) : Bool :=
  if bancoNorm == "OTRO" then
    if tipo == Cell.none || pyStrip (pyStr tipo) == "" then true
    else norm_upper tipo == "CORRIENTE" || norm_upper tipo == "AHORROS" || norm_upper tipo == "AHORRO"
  else
    match tipo with
    | Cell.str _ =>
      norm_upper tipo == "CORRIENTE" || norm_upper tipo == "AHORROS" || norm_upper tipo == "AHORRO"
    | _ => false

/-- `^[A-Z0-9]{1,4}-(\d{1,})$` of `_parse_doc_numero_only` applied to an
upper-cased string: first hyphen at position 1-4 with the leading block in
the class and the tail all digits, non-empty.  (Backtracking cannot help
the regex here: the class excludes the hyphen, so the leading block must
run exactly to the first hyphen.) -/
def docNumTail (l : List Char) : Option (List Char) :=
  let a := l.takeWhile (· != '-')
  match l.dropWhile (· != '-') with
  | '-' :: b =>
    if decide (1 ≤ a.length) && decide (a.length ≤ 4) && a.all isAlnumA &&
        !b.isEmpty && b.all Char.isDigit then some b
    else Option.none
  | _ => Option.none

/-- `_parse_doc_numero_only` (core.py line 334): the numeric tail of an
upper-cased `SERIE-NUMERO` string, or `None`. -/
def parse_doc_numero_only (docStr : Cell) : Option String :=
  let s := (nzCell docStr).data.map Char.toUpper
  (docNumTail s).map String.mk

/-- `re.match(r'^[A-Z0-9]{1,4}-\d{1,}$', doc, re.IGNORECASE)` of the row
loop (core.py line 394); `isAlnumA` is the ignore-case `[A-Z0-9]`. -/
def docShapeOk (doc : String) : Bool := (docNumTail doc.data).isSome

/-- The required-column vocabulary (core.py line 253). -/
def requiredCols : List String :=
  ["RUC", "Razón Social Proveedor", "Tipo Doc.", "Documento", "Vence",
   "Moneda", "Monto Neto a Pagar", "Banco", "Cta Bancaria", "CCI", "Tipo cuenta"]

/-- The per-RUC invoice-id index (`id_facturas_por_ruc`): RUC →
candidate full ids.  Python passes a dict of sets; list order models
iteration order. -/
abbrev RucIndex := List (String × List String)

/-- `dict.get(ruc, set())`. -/
def idxGet (idx : RucIndex) (ruc : String) : List String :=
  match List.lookup ruc idx with
  | some l => l
  | Option.none => []

/-- Python truthiness of the optional index argument
(`if id_facturas_por_ruc:`). -/
def idxTruthy (idx : Option RucIndex) : Bool :=
  match idx with
  | some l => !l.isEmpty
  | Option.none => false

/-- The document-reconciliation pre-pass (core.py lines 374-384) applied
to one row: replace `Documento` by the best suffix-reconciled candidate
when RUC is valid, the document number parses, and a candidate exists. -/
def prePassRow (idx : RucIndex) (r : Row) : Row :=
  let ruc := limpiar_numero (rowGet r "RUC")
  if !validar_ruc (Cell.str ruc) then r
  else
    match parse_doc_numero_only (rowGet r "Documento") with
    | Option.none => r
    | some numeroX =>
      if numeroX == "" then r
      else
        match best_by_numeric_suffix numeroX (idxGet idx ruc) with
        | Option.none => r
        | some elegido => rowSet r "Documento" (Cell.str elegido)

/-- The error list built for one row by the validation loop (core.py
lines 387-423), in source order. -/
def filaErrores (idx : Option RucIndex) (r : Row) : List String :=
  let e1 := if !validar_ruc (rowGet r "RUC") then ["RUC inválido (11 dígitos)"] else []
  let e2 := if !validar_razon_social (rowGet r "Razón Social Proveedor") then ["Razón Social vacía"] else []
  let doc := nzCell (rowGet r "Documento")
  let e3 := if !docShapeOk doc then ["Documento inválido (SERIE-NUMERO)"] else []
  let e4 := if !validar_fecha (rowGet r "Vence") then ["Fecha inválida"] else []
  let e5 := if !validar_moneda (rowGet r "Moneda") then ["Moneda inválida (PEN/USD)"] else []
  let e6 := if !validar_monto (rowGet r "Monto Neto a Pagar") then ["Monto inválido"] else []
  let bancoNorm := banco_tipo (rowGet r "Banco")
  let e7 :=
    if bancoNorm == "BCP" || bancoNorm == "BBVA" then
      (match rowGet r "Banco" with
       | Cell.str s => if pyStrip s == "" then ["Banco vacío"] else []
       | _ => ["Banco vacío"])
    else []
  let e8 :=
    if !validar_cta_bancaria (rowGet r "Cta Bancaria") bancoNorm then
      if bancoNorm == "BCP" || bancoNorm == "BBVA" then
        ["Cuenta inválida (BCP 13-14 díg., BBVA 18 díg.)"]
      else []
    else []
  let e9 := if !validar_cci (rowGet r "CCI") then ["CCI inválido (20 dígitos)"] else []
  let e10 :=
    if !validar_tipo_cuenta_para_banco (rowGet r "Tipo cuenta") bancoNorm then
      if bancoNorm == "BCP" || bancoNorm == "BBVA" then
        ["Tipo de cuenta inválido (corriente/ahorros)"]
      else ["Tipo de cuenta inválido (solo vacío o corriente/ahorros)"]
    else []
  let e11 :=
    if idxTruthy idx && validar_ruc (rowGet r "RUC") && doc != "" then
      match idx with
      | some ix =>
        let candidatos := idxGet ix (limpiar_numero (rowGet r "RUC"))
        if !candidatos.isEmpty && !candidatos.contains doc then
          ["Documento no coincide con XML para el RUC"]
        else []
      | Option.none => []
    else []
  e1 ++ e2 ++ e3 ++ e4 ++ e5 ++ e6 ++ e7 ++ e8 ++ e9 ++ e10 ++ e11

/-! ## XML element trees

`ElementTree` nodes as produced by `ET.fromstring` over the UBL invoice
namespaces.  Tags are carried in prefixed form (`"cbc:ID"`,
`"cac:DocumentReference"`, ...), mirroring the `NS` prefix map of
core.py; the page-2 extractor strips namespaces, which the model renders
by taking the local part after the colon.  Children use a dedicated list
type so that traversals are plain mutual structural recursions. -/

mutual
inductive XmlNode where
  | mk : String → List (String × String) → Option String → Kids → XmlNode
inductive Kids where
  | nil : Kids
  | cons : XmlNode → Kids → Kids
end

def XmlNode.tag : XmlNode → String
  | XmlNode.mk t _ _ _ => t

def XmlNode.attrs : XmlNode → List (String × String)
  | XmlNode.mk _ a _ _ => a

def XmlNode.text : XmlNode → Option String
  | XmlNode.mk _ _ x _ => x

def XmlNode.kids : XmlNode → Kids
  | XmlNode.mk _ _ _ ks => ks

def Kids.toList : Kids → List XmlNode
  | Kids.nil => []
  | Kids.cons k rest => k :: rest.toList

/-- Build a `Kids` spine from a list (for concrete fixtures). -/
def kidsOf : List XmlNode → Kids
  | [] => Kids.nil
  | k :: rest => Kids.cons k (kidsOf rest)

mutual
/-- All proper descendants of a node, in document (pre-)order — the node
set enumerated by `findall('.//…')`. -/
def XmlNode.descAll : XmlNode → List XmlNode
  | XmlNode.mk _ _ _ ks => kidsDescAll ks
def kidsDescAll : Kids → List XmlNode
  | Kids.nil => []
  | Kids.cons k rest => k :: k.descAll ++ kidsDescAll rest
end

/-- `root.findall('.//tag')`: descendants with the given (prefixed) tag,
in document order. -/
def XmlNode.descTag (n : XmlNode) (t : String) : List XmlNode :=
  n.descAll.filter (fun m => m.tag == t)

/-- `node.findall('./tag')`: direct children with the given tag. -/
def XmlNode.childTag (n : XmlNode) (t : String) : List XmlNode :=
  n.kids.toList.filter (fun m => m.tag == t)

/-- The path `.//a//b` as used by `_find_ruc_any` and the geography
lookups: descendants tagged `a`, then each of their descendants
tagged `b`. -/
def pathDD (a b : String) (root : XmlNode) : List XmlNode :=
  (root.descTag a).flatMap (fun n => n.descTag b)

/-- The path `.//a//z/y`: descendants `a`, descendants `z`, children
`y`. -/
def pathDDC (a z y : String) (root : XmlNode) : List XmlNode :=
  ((root.descTag a).flatMap (fun n => n.descTag z)).flatMap (fun n => n.childTag y)

/-- The path `.//a//z//w/y` (registration-address geography variants). -/
def pathDDDC (a z w y : String) (root : XmlNode) : List XmlNode :=
  (((root.descTag a).flatMap (fun n => n.descTag z)).flatMap
      (fun n => n.descTag w)).flatMap (fun n => n.childTag y)

/-- `_gettext` (core.py line 13): `(node.text or '').strip()` when the
node exists and its text is truthy, else `None`.  (The result may be the
empty string when the text was pure whitespace.) -/
def gettext (n : XmlNode) : Option String :=
  match n.text with
  | some s => if s == "" then none else some (pyStrip s)
  | Option.none => none

/-- `_findtext(root, './tag')` (core.py line 16): `_gettext` of the first
matching child. -/
def findtext (n : XmlNode) (t : String) : Option String :=
  match (n.childTag t).head? with
  | some el => gettext el
  | Option.none => none

/-- Python truthiness of an optional string. -/
def truthyO (s : Option String) : Bool :=
  match s with
  | some v => v != ""
  | Option.none => false

/-! ## Core XML metadata extractor (`extraer_datos_xml_bytes`, core.py
lines 56-168)

The input bytes determine a parse outcome (`ET.fromstring` succeeds with
a tree or raises) and a raw decoded text (used only by the page-2
fallback scanner). -/

inductive XmlBytes where
  | wellFormed : XmlNode → String → XmlBytes
  | malformed : String → XmlBytes

/-- The raw decoded text of the bytes (`_safe_decode`, page 2). -/
def XmlBytes.raw : XmlBytes → String
  | XmlBytes.wellFormed _ r => r
  | XmlBytes.malformed r => r

/-- The matcher of `re.match(r'^[A-Za-z0-9]{1,4}-[0-9A-Za-z]+$', s)`:
1-4 leading class characters, a hyphen, then a non-empty all-class tail
running to the end.  (The classes exclude `-`, so the greedy leading
block necessarily stops at the first hyphen and backtracking adds
nothing; any second hyphen makes the anchored match fail.) -/
def matchesIdRegex (l : List Char) : Bool :=
  let a := l.takeWhile isAlnumA
  match l.dropWhile isAlnumA with
  | '-' :: b =>
    decide (1 ≤ a.length) && decide (a.length ≤ 4) && !b.isEmpty && b.all isAlnumA
  | _ => false

/-- `_es_id_factura` (core.py line 57): non-empty, and after stripping,
exactly one hyphen and a match of the shape regex. -/
def es_id_factura (s : String) : Bool :=
  if s == "" then false
  else
    let t := stripChars s.data
    if countChar '-' t != 1 then false
    else matchesIdRegex t

/-- The `cac:DocumentReference` pass (core.py lines 76-82): first
document reference whose `cbc:DocumentTypeCode` strips to `"01"` and
whose `cbc:ID` is truthy and id-shaped. -/
def idFromDocRefs (root : XmlNode) : Option String :=
  (root.descTag "cac:DocumentReference").findSome? fun dr =>
    let dtc := findtext dr "cbc:DocumentTypeCode"
    if pyStrip ((dtc).getD "") == "01" then
      match findtext dr "cbc:ID" with
      | some cand => if cand != "" && es_id_factura cand then some (pyStrip cand) else none
      | Option.none => none
    else none

/-- The root-id pass (core.py lines 84-87): the root's own `cbc:ID`. -/
def idFromRoot (root : XmlNode) : Option String :=
  match findtext root "cbc:ID" with
  | some cand => if cand != "" && es_id_factura cand then some (pyStrip cand) else none
  | Option.none => none

/-- The anywhere pass (core.py lines 89-94): first id-shaped `cbc:ID`
descendant. -/
def idFromAnywhere (root : XmlNode) : Option String :=
  (root.descTag "cbc:ID").findSome? fun tag =>
    match gettext tag with
    | some t => if t != "" && es_id_factura t then some (pyStrip t) else none
    | Option.none => none

/-- `_find_ruc_any` (core.py line 100): scan the given path results in
order for a node with `schemeID="6"` and truthy text whose strip is
non-empty. -/
def find_ruc_any (root : XmlNode) (paths : List (XmlNode → List XmlNode)) : Option String :=
  paths.findSome? fun p =>
    (p root).findSome? fun tag =>
      if List.lookup "schemeID" tag.attrs == some "6" && truthyO tag.text then
        let val := pyStrip ((tag.text).getD "")
        if val != "" then some val else none
      else none

/-- `_pick_first_text` (core.py line 65): first path whose first node has
truthy text, normalised. -/
def pick_first_text (root : XmlNode) (paths : List (XmlNode → List XmlNode)) : Option String :=
  paths.findSome? fun p =>
    let val : Option String :=
      match (p root).head? with
      | some el => gettext el
      | Option.none => none
    match val with
    | some v => if v != "" then some (normaliza v) else none
    | Option.none => none

/-- The 11-field result tuple of `extraer_datos_xml_bytes`. -/
structure Extracted where
  id_factura : Option String
  ruc_emisor : Option String
  ruc_pagador : Option String
  serie : Option String
  numero : Option String
  sup_city : Option String
  sup_subentity : Option String
  sup_district : Option String
  cus_city : Option String
  cus_subentity : Option String
  cus_district : Option String
deriving Repr, DecidableEq

/-- The all-`None` tuple of the `except` branch. -/
def emptyExtracted : Extracted :=
  ⟨none, none, none, none, none, none, none, none, none, none, none⟩

/-- The supplier-RUC path list (core.py lines 109-116). -/
def rucEmisorPaths : List (XmlNode → List XmlNode) :=
  [pathDD "cac:AccountingSupplierParty" "cbc:ID",
   pathDDC "cac:AccountingSupplierParty" "cac:PartyLegalEntity" "cbc:CompanyID",
   pathDD "cac:SellerSupplierParty" "cbc:ID",
   pathDDC "cac:SellerSupplierParty" "cac:PartyLegalEntity" "cbc:CompanyID",
   pathDD "cac:SenderParty" "cbc:CompanyID",
   pathDDC "cac:SenderParty" "cac:PartyLegalEntity" "cbc:CompanyID"]

/-- The customer-RUC path list (core.py lines 117-124). -/
def rucPagadorPaths : List (XmlNode → List XmlNode) :=
  [pathDD "cac:AccountingCustomerParty" "cbc:ID",
   pathDDC "cac:AccountingCustomerParty" "cac:PartyLegalEntity" "cbc:CompanyID",
   pathDD "cac:BuyerCustomerParty" "cbc:ID",
   pathDDC "cac:BuyerCustomerParty" "cac:PartyLegalEntity" "cbc:CompanyID",
   pathDD "cac:ReceiverParty" "cbc:CompanyID",
   pathDDC "cac:ReceiverParty" "cac:PartyLegalEntity" "cbc:CompanyID"]

/-- The id cascade of `extraer_datos_xml_bytes` (core.py lines 75-94):
document-reference pass, then the root's own id, then anywhere — each
tried only while the previous result is still falsy. -/
def extraerId (root : XmlNode) : Option String :=
  let id1 := idFromDocRefs root
  let id2 := if truthyO id1 then id1 else idFromRoot root
  if truthyO id2 then id2 else idFromAnywhere root

/-- The serie/numero split (core.py lines 96-98): `id_factura.split('-', 1)`
when the id is truthy and contains a hyphen. -/
def serieNumeroOf (idF : Option String) : Option String × Option String :=
  match idF with
  | some i =>
    if i != "" && containsSub ['-'] i.data then
      match pySplit1 i.data with
      | (a, some c) => (some (String.mk a), some (String.mk c))
      | (_, Option.none) => (none, none)
    else (none, none)
  | Option.none => (none, none)

/-- `extraer_datos_xml_bytes` (core.py lines 56-168). -/
def extraer_datos_xml_bytes (b : XmlBytes) : Extracted :=
  match b with
  | XmlBytes.malformed _ => emptyExtracted
  | XmlBytes.wellFormed root _ =>
    let idF := extraerId root
    let sn := serieNumeroOf idF
    let rucE := find_ruc_any root rucEmisorPaths
    let rucP := find_ruc_any root rucPagadorPaths
    let supCity := pick_first_text root
      [pathDDC "cac:AccountingSupplierParty" "cac:PostalAddress" "cbc:CityName",
       pathDDDC "cac:AccountingSupplierParty" "cac:PartyLegalEntity" "cac:RegistrationAddress" "cbc:CityName",
       pathDDC "cac:SellerSupplierParty" "cac:PostalAddress" "cbc:CityName"]
    let supSub := pick_first_text root
      [pathDDC "cac:AccountingSupplierParty" "cac:PostalAddress" "cbc:CountrySubentity",
       pathDDDC "cac:AccountingSupplierParty" "cac:PartyLegalEntity" "cac:RegistrationAddress" "cbc:CountrySubentity",
       pathDDC "cac:SellerSupplierParty" "cac:PostalAddress" "cbc:CountrySubentity"]
    let supDist := pick_first_text root
      [pathDDC "cac:AccountingSupplierParty" "cac:PostalAddress" "cbc:District",
       pathDDDC "cac:AccountingSupplierParty" "cac:PartyLegalEntity" "cac:RegistrationAddress" "cbc:District",
       pathDDC "cac:SellerSupplierParty" "cac:PostalAddress" "cbc:District"]
    let cusCity := pick_first_text root
      [pathDDC "cac:AccountingCustomerParty" "cac:PostalAddress" "cbc:CityName",
       pathDDDC "cac:BuyerCustomerParty" "cac:PartyLegalEntity" "cac:RegistrationAddress" "cbc:CityName"]
    let cusSub := pick_first_text root
      [pathDDC "cac:AccountingCustomerParty" "cac:PostalAddress" "cbc:CountrySubentity",
       pathDDDC "cac:BuyerCustomerParty" "cac:PartyLegalEntity" "cac:RegistrationAddress" "cbc:CountrySubentity"]
    let cusDist := pick_first_text root
      [pathDDC "cac:AccountingCustomerParty" "cac:PostalAddress" "cbc:District",
       pathDDDC "cac:BuyerCustomerParty" "cac:PartyLegalEntity" "cac:RegistrationAddress" "cbc:District"]
    { id_factura := idF
      ruc_emisor := rucE
      ruc_pagador := rucP
      serie := sn.1
      numero := sn.2
      sup_city := supCity.map normaliza
      sup_subentity := supSub.map normaliza
      sup_district := supDist.map normaliza
      cus_city := cusCity.map normaliza
      cus_subentity := cusSub.map normaliza
      cus_district := cusDist.map normaliza }

/-! ## Content matcher (`pdf_contiene_datos` and `emparejar_y_reportar`,
core.py lines 170-239)

A PDF is modelled by the per-page text `fitz` would extract (`none` for
bytes `fitz.open` rejects, which makes `pdf_contiene_datos` return
`False` through its `except` branch).  Report and log lines keep their
data fields; the surrounding fixed text/emoji of the Python f-strings is
not re-rendered. -/

structure XmlFile where
  filename : String
  content : XmlBytes

structure PdfFile where
  filename : String
  content : Option (List String)

/-- `pdf_contiene_datos(pdf_bytes, ruc_emisor, serie, numero)` (core.py
line 170): some page contains truthy `serie`, `numero` and `ruc_emisor`
as substrings. -/
def pdf_contiene_datos (content : Option (List String))
    (rucEmisor serie numero : Option String) : Bool :=
  match content with
  | Option.none => false
  | some pages =>
    pages.any fun text =>
      truthyO serie && truthyO numero &&
      strContains (serie.getD "") text && strContains (numero.getD "") text &&
      truthyO rucEmisor && strContains (rucEmisor.getD "") text

/-- One row of the geography reference table (the `Departamento`,
`Provincia`, `Distrito` and `Ubigeo` columns used by `buscar_ubigeo`). -/
structure UbiRow where
  dep : Option String
  prov : Option String
  dist : Option String
  ubigeo : Option String

/-- `buscar_ubigeo` (core.py line 181): three-key equality lookup. -/
def buscar_ubigeo (dfubi : Option (List UbiRow))
    (city subentity district : Option String) : Option String :=
  match dfubi with
  | Option.none => none
  | some rows =>
    if !truthyO city || !truthyO subentity || !truthyO district then none
    else
      match rows.find? (fun r => r.dep == city && r.prov == subentity && r.dist == district) with
      | some r => r.ubigeo
      | Option.none => none

/-- One row of the ubigeo report (`reporte_rows`, core.py lines 221-229). -/
structure ReportRow where
  xmlOriginal : String
  rucEmisor : Option String
  emisorDep : Option String
  emisorProv : Option String
  emisorDist : Option String
  ubigeoEmisor : Option String
  rucPagador : Option String
  pagadorDep : Option String
  pagadorProv : Option String
  pagadorDist : Option String
  ubigeoPagador : Option String

/-- An entry of `errores` in `emparejar_y_reportar`: either the
"No se pudo extraer ID o RUC" line or the "Sin PDF emparejado" line, each
carrying the XML filename interpolated into the f-string. -/
inductive ParErr where
  | extractFail : String → ParErr
  | sinPdf : String → ParErr
deriving Repr, DecidableEq

/-- Output content stored into `resultado_ordenado` (XML bytes or PDF
bytes). -/
inductive OutContent where
  | xmlC : XmlBytes → OutContent
  | pdfC : Option (List String) → OutContent

/-- The outputs of `emparejar_y_reportar` (the two joined report texts
are kept as their underlying line lists). -/
structure ParOut where
  resultado : List (String × OutContent)
  matchLines : List (String × String)
  errores : List ParErr
  reporte : List ReportRow

/-- The per-XML loop of `emparejar_y_reportar` (core.py lines 197-229),
written with the consumed-PDF index set as the loop parameter. -/
def emparejarLoop (pdfs : List PdfFile) (dfUbi : Option (List UbiRow)) :
    List XmlFile → List Nat → ParOut
  | [], _ => ⟨[], [], [], []⟩
  | x :: rest, usados =>
    let e := extraer_datos_xml_bytes x.content
    if !truthyO e.id_factura || !truthyO e.ruc_emisor then
      let tail := emparejarLoop pdfs dfUbi rest usados
      { tail with errores := ParErr.extractFail x.filename :: tail.errores }
    else
      let ubiSup := buscar_ubigeo dfUbi e.sup_city e.sup_subentity e.sup_district
      let ubiCus := buscar_ubigeo dfUbi e.cus_city e.cus_subentity e.cus_district
      let row : ReportRow :=
        ⟨x.filename, e.ruc_emisor, e.sup_subentity, e.sup_city, e.sup_district, ubiSup,
         e.ruc_pagador, e.cus_subentity, e.cus_city, e.cus_district, ubiCus⟩
      let idXml := (e.id_factura).getD ""
      match pdfs.enum.find? (fun jp =>
          !usados.contains jp.1 &&
          pdf_contiene_datos jp.2.content e.ruc_emisor e.serie e.numero) with
      | some (j, p) =>
        let nombreBase := ((e.ruc_pagador).getD "SINRUC") ++ "-" ++ idXml
        let tail := emparejarLoop pdfs dfUbi rest (usados ++ [j])
        { resultado := ("ORDENADO/" ++ nombreBase ++ ".xml", OutContent.xmlC x.content) ::
            ("ORDENADO/" ++ nombreBase ++ ".pdf", OutContent.pdfC p.content) :: tail.resultado
          matchLines := (idXml, p.filename) :: tail.matchLines
          errores := tail.errores
          reporte := row :: tail.reporte }
      | Option.none =>
        let tail := emparejarLoop pdfs dfUbi rest usados
        { tail with
          errores := ParErr.sinPdf x.filename :: tail.errores
          reporte := row :: tail.reporte }

/-- `emparejar_y_reportar(xml_files, pdf_files, df_ubi)` (core.py line
191). -/
def emparejar_y_reportar (xmls : List XmlFile) (pdfs : List PdfFile)
    (dfUbi : Option (List UbiRow)) : ParOut :=
  emparejarLoop pdfs dfUbi xmls []

/-! ### Claim-side greedy assignment

The independent rendering of the matching rule as the specification
states it: records in order; a record with id and issuer RUC present
scans the not-yet-consumed PDFs in list order and takes the first whose
single-page text contains the series, the number and the issuer RUC as
substrings; the chosen PDF index is consumed. -/

/-- Does some single page of this PDF contain the three strings? -/
def specPageHit (p : PdfFile) (serie numero ruc : String) : Bool :=
  (p.content.getD []).any fun text =>
    strContains serie text && strContains numero text && strContains ruc text

/-- Per-record outcome of the greedy assignment. -/
inductive XStatus where
  | failed : String → XStatus
  | matched : String → Nat → String → XStatus
  | unmatched : String → XStatus
deriving Repr, DecidableEq

/-- The greedy, consumed-set-threaded assignment described by the
specification. -/
def specStatuses (pdfs : List PdfFile) : List XmlFile → List Nat → List XStatus
  | [], _ => []
  | x :: rest, consumed =>
    let e := extraer_datos_xml_bytes x.content
    match e.id_factura, e.ruc_emisor with
    | some i, some r =>
      match pdfs.enum.find? (fun jp =>
          !consumed.contains jp.1 &&
          specPageHit jp.2 ((e.serie).getD "") ((e.numero).getD "") r) with
      | some (j, p) => XStatus.matched i j p.filename :: specStatuses pdfs rest (consumed ++ [j])
      | Option.none => XStatus.unmatched x.filename :: specStatuses pdfs rest consumed
    | _, _ => XStatus.failed x.filename :: specStatuses pdfs rest consumed

/-- The matched (id, pdf-name) pairs of a status list. -/
def statusPairs (sts : List XStatus) : List (String × String) :=
  sts.filterMap fun st =>
    match st with
    | XStatus.matched i _ pn => some (i, pn)
    | _ => none

/-- The consumed PDF indices of a status list. -/
def statusIdxs (sts : List XStatus) : List Nat :=
  sts.filterMap fun st =>
    match st with
    | XStatus.matched _ j _ => some j
    | _ => none

/-- The error entries of a status list. -/
def statusErrs (sts : List XStatus) : List ParErr :=
  sts.filterMap fun st =>
    match st with
    | XStatus.failed fn => some (ParErr.extractFail fn)
    | XStatus.unmatched fn => some (ParErr.sinPdf fn)
    | XStatus.matched _ _ _ => none

/-! ## Page-2 extractor (`_extract_xml_meta`,
pages/2_Validacion_Confirming.py lines 218-292)

`iterparse` strips `{namespace}` from tags; on the prefixed-tag model
this is the local part after the colon.  The three fallback regexes are
implemented as deterministic scanners; the only regex needing real
backtracking, `([A-Z]{1,3}\d{1,4})\D?(\d{1,12})`, enumerates group
widths in the greedy preference order of the `re` engine. -/

/-- The namespace-stripped (local) tag name. -/
def localName (t : String) : String :=
  match t.data.dropWhile (· != ':') with
  | ':' :: rest => String.mk rest
  | _ => t

/-- `root.findall(".//TAG")` after namespace stripping. -/
def descLocal (n : XmlNode) (t : String) : List XmlNode :=
  n.descAll.filter (fun m => localName m.tag == t)

/-- `_to_safe_str` (page 2, line 168) on a string: `""` for the literal
`"nan"` (case-insensitive), else the stripped string. -/
def to_safe_str (s : String) : String :=
  if String.mk (s.data.map Char.toLower) == "nan" then "" else pyStrip s

/-- Take exactly `n` characters satisfying `p`. -/
def takeCount (p : Char → Bool) : Nat → List Char → Option (List Char × List Char)
  | 0, l => some ([], l)
  | _ + 1, [] => none
  | n + 1, c :: rest =>
    if p c then (takeCount p n rest).map (fun ar => (c :: ar.1, ar.2)) else none

/-- Consume a literal, case-insensitively. -/
def litCI : List Char → List Char → Option (List Char)
  | [], l => some l
  | _ :: _, [] => none
  | c :: cs, d :: ds => if c.toLower == d.toLower then litCI cs ds else none

/-- Try a pattern at every start position, left to right (`re.search`). -/
def scanPos (f : List Char → Option α) : List Char → Option α
  | [] => f []
  | c :: rest =>
    match f (c :: rest) with
    | some r => some r
    | Option.none => scanPos f rest

/-- `([A-Z]{1,3}\d{1,4})\D?(\d{1,12})` at one position, group widths in
greedy order; `letter` is `[A-Z]`, case-folded when the regex carries
`re.IGNORECASE`. -/
def matchSC (letter : Char → Bool) (l : List Char) : Option (List Char × List Char) :=
  [3, 2, 1].findSome? fun nl =>
    (takeCount letter nl l).bind fun lr =>
      [4, 3, 2, 1].findSome? fun nd =>
        (takeCount Char.isDigit nd lr.2).bind fun dr =>
          let g1 := lr.1 ++ dr.1
          let tailNum := fun (r : List Char) =>
            [12, 11, 10, 9, 8, 7, 6, 5, 4, 3, 2, 1].findSome? fun n2 =>
              (takeCount Char.isDigit n2 r).map fun dr2 => (g1, dr2.1)
          match dr.2 with
          | c :: rest2 =>
            if !c.isDigit then
              match tailNum rest2 with
              | some g => some g
              | Option.none => tailNum dr.2
            else tailNum dr.2
          | [] => tailNum []

/-- `re.search(r"([A-Z]{1,3}\d{1,4})\D?(\d{1,12})", s)`, optionally
case-insensitive. -/
def searchSerieCorr (ci : Bool) (s : List Char) : Option (List Char × List Char) :=
  scanPos (matchSC (if ci then Char.isAlpha else Char.isUpper)) s

/-- The lazy capture of `(.*?)</cbc:ID>` (DOTALL): characters up to the
earliest occurrence of the closing literal. -/
def findClose (close : List Char) : List Char → Option (List Char)
  | [] => none
  | c :: rest =>
    match litCI close (c :: rest) with
    | some _ => some []
    | Option.none => (findClose close rest).map (fun cap => c :: cap)

/-- `<cbc:ID[^>]*>(.*?)</cbc:ID>` at one position (IGNORECASE, DOTALL). -/
def matchCbcId (l : List Char) : Option (List Char) :=
  (litCI "<cbc:ID".data l).bind fun r1 =>
    match r1.dropWhile (· != '>') with
    | '>' :: r2 => findClose "</cbc:ID>".data r2
    | _ => none

/-- `re.search(r"<cbc:ID[^>]*>(.*?)</cbc:ID>", text, IGNORECASE|DOTALL)`. -/
def searchCbcId (s : List Char) : Option (List Char) := scanPos matchCbcId s

/-- `schemeID\s*=\s*"6"[^>]*>\s*([0-9]{11})\s*<` at one position. -/
def matchScheme6 (l : List Char) : Option (List Char) :=
  (litCI "schemeID".data l).bind fun r1 =>
    match r1.dropWhile isWS with
    | '=' :: r3 =>
      (litCI ['"', '6', '"'] (r3.dropWhile isWS)).bind fun r5 =>
        match r5.dropWhile (· != '>') with
        | '>' :: r7 =>
          (takeCount Char.isDigit 11 (r7.dropWhile isWS)).bind fun dr =>
            match dr.2.dropWhile isWS with
            | '<' :: _ => some dr.1
            | _ => none
        | _ => none
    | _ => none

/-- `re.search(r'schemeID\s*=\s*"6"[^>]*>\s*([0-9]{11})\s*<', text,
IGNORECASE)`. -/
def searchScheme6 (s : List Char) : Option (List Char) := scanPos matchScheme6 s

/-- `<cbc:(?:InvoiceTypeCode|CreditNoteTypeCode|DebitNoteTypeCode)[^>]*>\s*([0-9]{2})\s*<`
at one position. -/
def matchTypeCode (l : List Char) : Option (List Char) :=
  (litCI "<cbc:".data l).bind fun r1 =>
    let alt :=
      match litCI "InvoiceTypeCode".data r1 with
      | some r => some r
      | Option.none =>
        match litCI "CreditNoteTypeCode".data r1 with
        | some r => some r
        | Option.none => litCI "DebitNoteTypeCode".data r1
    alt.bind fun r2 =>
      match r2.dropWhile (· != '>') with
      | '>' :: r3 =>
        (takeCount Char.isDigit 2 (r3.dropWhile isWS)).bind fun dr =>
          match dr.2.dropWhile isWS with
          | '<' :: _ => some dr.1
          | _ => none
      | _ => none

/-- The type-code fallback search (IGNORECASE). -/
def searchTypeCode (s : List Char) : Option (List Char) := scanPos matchTypeCode s

/-- The record built by `_extract_xml_meta`. -/
structure Meta where
  ruc : Option String
  tipo : Option String
  serie : Option String
  corr : Option String
  id_full : Option String
deriving Repr, DecidableEq

/-- The `except` branch of `_extract_xml_meta` (page 2, lines 273-288):
regex scanning of the raw decoded text for the id, the `schemeID="6"`
RUC and the document-type code. -/
def metaFallback (raw : String) : Meta :=
  let text := raw.data
  let idPart : Option String × Option String × Option String :=
    match searchCbcId text with
    | some cap =>
      let idFull := cap.filter (fun c => !isWS c)
      match searchSerieCorr true idFull with
      | some g => (some (String.mk idFull), some (String.mk (g.1.map Char.toUpper)), some (String.mk g.2))
      | Option.none => (some (String.mk idFull), none, none)
    | Option.none => (none, none, none)
  let ruc :=
    match searchScheme6 text with
    | some ds => some (String.mk ds)
    | Option.none => none
  let tipo :=
    match searchTypeCode text with
    | some ds => some (String.mk ds)
    | Option.none => none
  ⟨ruc, tipo, idPart.2.1, idPart.2.2, idPart.1⟩

/-- The structural branch of `_extract_xml_meta` (page 2, lines 231-271)
on a parsed, namespace-stripped tree. -/
def metaStructural (root : XmlNode) : Meta :=
  let idPart : Option String × Option String × Option String :=
    match (descLocal root "ID").head? with
    | some idNode =>
      if truthyO idNode.text then
        let docId := pyStrip ((idNode.text).getD "")
        if containsSub ['-'] docId.data then
          match pySplit1 docId.data with
          | (s, some c) =>
            (some docId, some (upperPy (pyStrip (String.mk s))), some (pyStrip (String.mk c)))
          | (_, Option.none) => (some docId, none, none)
        else
          match searchSerieCorr false (docId.data.map Char.toUpper) with
          | some g => (some docId, some (String.mk g.1), some (String.mk g.2))
          | Option.none => (some docId, none, none)
      else (none, none, none)
    | Option.none => (none, none, none)
  let tnode :=
    match (descLocal root "InvoiceTypeCode").head? with
    | some n => some n
    | Option.none =>
      match (descLocal root "CreditNoteTypeCode").head? with
      | some n => some n
      | Option.none => (descLocal root "DebitNoteTypeCode").head?
  let tipo :=
    match tnode with
    | some n => if truthyO n.text then some (to_safe_str ((n.text).getD "")) else none
    | Option.none => none
  let rucNode := (descLocal root "ID").find? fun n =>
    pyStrip ((List.lookup "schemeID" n.attrs).getD "") == "6" &&
    (digitsOnly ((n.text).getD "").data).length == 11
  let ruc :=
    match rucNode with
    | some n =>
      if truthyO n.text then
        some (String.mk (digitsOnly (pyStrip ((n.text).getD "")).data))
      else none
    | Option.none => none
  ⟨ruc, tipo, idPart.2.1, idPart.2.2, idPart.1⟩

/-- The `if meta["serie"]: meta["serie"] = meta["serie"].upper()`
post-step (page 2, lines 290-291). -/
def metaPost (m : Meta) : Meta :=
  match m.serie with
  | some s => if s != "" then { m with serie := some (upperPy s) } else m
  | Option.none => m

/-- `_extract_xml_meta(xml_bytes)` (page 2, line 218). -/
def extract_xml_meta (b : XmlBytes) : Meta :=
  match b with
  | XmlBytes.wellFormed root _ => metaPost (metaStructural root)
  | XmlBytes.malformed raw => metaPost (metaFallback raw)

/-! ## The `validar_confirming_excel` pipeline (core.py lines 250-453)

A `pandas` frame is its column labels plus rows; the Excel writers at the
end of the function are abstracted to the data they serialise (the chosen
sheet, the final rows, the error records, the valid rows and the
per-currency groups). -/

structure Df where
  cols : List String
  rows : List Row

/-- `df[col] = value` (broadcast a constant). -/
def dfSetConst (df : Df) (col : String) (v : Cell) : Df :=
  { cols := if df.cols.contains col then df.cols else df.cols ++ [col]
    rows := df.rows.map (fun r => rowSet r col v) }

/-- `df[dst] = df[src]` (raises `KeyError` when `src` is absent). -/
def dfCopyCol (df : Df) (src dst : String) : Except String Df :=
  if !df.cols.contains src then Except.error "KeyError"
  else Except.ok
    { cols := if df.cols.contains dst then df.cols else df.cols ++ [dst]
      rows := df.rows.map (fun r => rowSet r dst (rowGet r src)) }

/-- The sheet-selection loop (core.py lines 255-262): first sheet whose
columns include the full required vocabulary, else the first sheet. -/
def chooseSheet (wb : Workbook) : Except String Sheet :=
  match wb.find? (fun s => requiredCols.all (fun c => s.cols.contains c)) with
  | some s => Except.ok s
  | Option.none =>
    match wb with
    | [] => Except.error "IndexError"
    | s :: _ => Except.ok s

/-- First-occurrence deduplication (`pandas.unique`). -/
def dedupAux (seen : List String) : List String → List String
  | [] => []
  | x :: rest => if seen.contains x then dedupAux seen rest else x :: dedupAux (x :: seen) rest

def dedup (l : List String) : List String := dedupAux [] l

/-- The outputs of `validar_confirming_excel`: chosen sheet name, final
frame, error records `(excel row, joined messages)`, valid rows, and the
per-currency partition written to the validated workbook. -/
structure VOut where
  hoja : String
  dfCols : List String
  dfRows : List Row
  errores : List (Nat × String)
  validos : List Row
  grupos : List (String × List Row)
deriving Repr, DecidableEq

/-- Everything `validar_confirming_excel` does after the sheet is chosen
(core.py lines 263-453): force `Tipo Doc.`, back up `Documento`, run the
reconciliation pre-pass, validate every row, partition the valid rows by
upper-cased currency. -/
def processSheet (idx : Option RucIndex) (sh : Sheet) : Except String VOut :=
  let df0 : Df := ⟨sh.cols, sh.rows⟩
  let df1 := dfSetConst df0 "Tipo Doc." (Cell.str "FACT")
  (if df1.cols.contains "Documento_Original" then Except.ok df1
   else dfCopyCol df1 "Documento" "Documento_Original").bind fun df2 =>
    let df3 : Df :=
      if idxTruthy idx then { df2 with rows := df2.rows.map (prePassRow (idx.getD [])) }
      else df2
    let errs := df3.rows.enum.filterMap fun ir =>
      let es := filaErrores idx ir.2
      if es.isEmpty then none else some (ir.1 + 2, String.intercalate "; " es)
    let validos := df3.rows.filter (fun r => (filaErrores idx r).isEmpty)
    (if validos.isEmpty then Except.ok []
     else if df3.cols.contains "Moneda" then
       let monedas := dedup (validos.filterMap fun r =>
         match rowGet r "Moneda" with
         | Cell.none => none
         | c => some (upperPy (pyStr c)))
       Except.ok (monedas.map fun m =>
         (m, validos.filter (fun r => upperPy (pyStr (rowGet r "Moneda")) == m)))
     else Except.error "KeyError").map fun grupos =>
      ⟨sh.name, df3.cols, df3.rows, errs, validos, grupos⟩

/-- `validar_confirming_excel(file_bytes, id_facturas_por_ruc)` (core.py
line 250). -/
def validar_confirming_excel (wb : Workbook) (idx : Option RucIndex) : Except String VOut :=
  (chooseSheet wb).bind (processSheet idx)

/-! ## Archive expander (`colectar_xml_pdf_desde_adjuntos`,
pages/1_Renombrado_XML_PDF.py lines 27-144)

Uploaded bytes are modelled by their size together with their behaviour
under the format dispatchers: `raw` bytes fail every container decoder
(`_dispatch_iter` raises, including the missing-py7zr/rarfile cases),
`packed` bytes decode to an entry list.  `st.warning`/`st.error` panels
are modelled by recording the offending composed name. -/

mutual
inductive Blob where
  | raw : Nat → Blob
  | packed : Nat → Entries → Blob
inductive Entries where
  | nil : Entries
  | cons : String → Blob → Entries → Entries
end

def Blob.size : Blob → Nat
  | Blob.raw n => n
  | Blob.packed n _ => n

mutual
def Blob.weight : Blob → Nat
  | Blob.raw _ => 1
  | Blob.packed _ es => es.weight + 1
def Entries.weight : Entries → Nat
  | Entries.nil => 0
  | Entries.cons _ b rest => b.weight + rest.weight
end

/-- `MAX_TOTAL_BYTES = 200 * 1024**2` (page 1, line 7). -/
def MAX_TOTAL_BYTES : Nat := 200 * 1024 * 1024

/-- `MAX_DEPTH = 3` (page 1, line 6). -/
def MAX_DEPTH : Nat := 3

/-- Python `str.endswith` on character lists. -/
def endsWithL (s suffixPart : List Char) : Bool :=
  beginsWith suffixPart.reverse s.reverse

/-- `_lower_ext` (page 1, line 27). -/
def lowerExt (name : String) : String :=
  let n := name.data.map Char.toLower
  if endsWithL n ".tar.gz".data || endsWithL n ".tgz".data then ".tgz"
  else if endsWithL n ".xml".data then ".xml"
  else if endsWithL n ".pdf".data then ".pdf"
  else if endsWithL n ".zip".data then ".zip"
  else if endsWithL n ".tar".data then ".tar"
  else if endsWithL n ".gz".data then ".gz"
  else if endsWithL n ".7z".data then ".7z"
  else if endsWithL n ".rar".data then ".rar"
  else ""

/-- `ALLOWED_ARCHIVE_EXTS` (page 1, line 10). -/
def ALLOWED_ARCHIVE_EXTS : List String := [".zip", ".tar", ".gz", ".tgz", ".7z", ".rar"]

/-- `_is_archive` (page 1, line 36). -/
def isArchive (name : String) : Bool := ALLOWED_ARCHIVE_EXTS.contains (lowerExt name)

/-- The `for inner_name, inner_bytes in _dispatch_iter(...)` body (page
1, lines 131-138) with `_safe_add`'s `ValueError` surfacing as the third
component: returns the running total after the processed entries, the
queue items appended before any failure, and whether the whole iteration
succeeded.  On failure the total reflects Python's in-place updates up to
(but excluding) the failing entry. -/
def expandEntries (name : String) (depth : Nat) :
    Entries → Nat → Nat × List (String × Blob × Nat) × Bool
  | Entries.nil, total => (total, [], true)
  | Entries.cons inner b rest, total =>
    if total + b.size > MAX_TOTAL_BYTES then (total, [], false)
    else
      let item : String × Blob × Nat :=
        (name ++ "!/" ++ inner, b, if isArchive inner then depth + 1 else depth)
      let t3 := expandEntries name depth rest (total + b.size)
      (t3.1, item :: t3.2.1, t3.2.2)

/-- Total blob weight of a queue (termination measure of the worklist
loop). -/
def qWeight : List (String × Blob × Nat) → Nat
  | [] => 0
  | (_, b, _) :: rest => b.weight + qWeight rest

theorem Blob.weight_pos (b : Blob) : 0 < b.weight := by
  cases b <;> simp [Blob.weight]

theorem qWeight_append (a b : List (String × Blob × Nat)) :
    qWeight (a ++ b) = qWeight a + qWeight b := by
  induction a with
  | nil => simp [qWeight]
  | cons x rest ih => cases x with | mk n p => cases p with | mk bb d =>
      simp [qWeight, ih]; omega

theorem expandEntries_weight (name : String) (depth : Nat) :
    ∀ (es : Entries) (total : Nat),
      qWeight (expandEntries name depth es total).2.1 ≤ es.weight
  | Entries.nil, _ => by simp [expandEntries, qWeight, Entries.weight]
  | Entries.cons inner b rest, total => by
    have ih := expandEntries_weight name depth rest (total + b.size)
    have hb := Blob.weight_pos b
    simp only [expandEntries, Entries.weight]
    split
    · simp only [qWeight]
      omega
    · simp only [qWeight]
      omega

/-- The mutable state of the worklist loop: collected XML and PDF leaf
attachments, warning and error names, and the running byte total. -/
structure CollectSt where
  xmls : List (String × Blob)
  pdfs : List (String × Blob)
  warns : List String
  errs : List String
  total : Nat

/-- The `while q:` loop of `colectar_xml_pdf_desde_adjuntos` (page 1,
lines 113-143), written with explicit fuel so that it is structurally
recursive (and hence kernel-computable); `collectLoop` below instantiates
the fuel with the queue weight, which `collectGo_fuel` shows is always
enough — each iteration pops one item whose blob weighs at least one and
enqueues only the strictly lighter children of that item. -/
def collectGo (maxDepth : Nat) : Nat → List (String × Blob × Nat) → CollectSt → CollectSt
  | _, [], st => st
  | 0, _ :: _, st => st
  | fuel + 1, (name, b, depth) :: rest, st =>
    let ext := lowerExt name
    if ext == ".xml" then
      collectGo maxDepth fuel rest { st with xmls := st.xmls ++ [(name, b)] }
    else if ext == ".pdf" then
      collectGo maxDepth fuel rest { st with pdfs := st.pdfs ++ [(name, b)] }
    else if isArchive name then
      if depth ≥ maxDepth then
        collectGo maxDepth fuel rest { st with warns := st.warns ++ [name] }
      else
        match b with
        | Blob.raw _ => collectGo maxDepth fuel rest { st with errs := st.errs ++ [name] }
        | Blob.packed _ es =>
          let t3 := expandEntries name depth es st.total
          collectGo maxDepth fuel (rest ++ t3.2.1)
            { st with total := t3.1
                      errs := if t3.2.2 then st.errs else st.errs ++ [name] }
    else collectGo maxDepth fuel rest st

/-- The worklist loop at its canonical fuel. -/
def collectLoop (maxDepth : Nat) (q : List (String × Blob × Nat)) (st : CollectSt) : CollectSt :=
  collectGo maxDepth (qWeight q) q st

/-- The initial upload pass (page 1, lines 107-111): sizes are added via
`_safe_add` *outside* any handler, so exceeding the budget here raises
out of the whole function. -/
def loadUploads : List (String × Blob) → Nat → Except String (Nat × List (String × Blob × Nat))
  | [], total => Except.ok (total, [])
  | (name, b) :: rest, total =>
    if total + b.size > MAX_TOTAL_BYTES then Except.error name
    else (loadUploads rest (total + b.size)).map fun tq => (tq.1, (name, b, 0) :: tq.2)

/-- `colectar_xml_pdf_desde_adjuntos(uploads, max_depth)` (page 1, line
94). -/
def colectar_xml_pdf_desde_adjuntos (uploads : List (String × Blob))
    (maxDepth : Nat) : Except String CollectSt :=
  (loadUploads uploads 0).map fun tq => collectLoop maxDepth tq.2 ⟨[], [], [], [], tq.1⟩

/-! ## Specification-side precedence and concrete fixtures -/

/-- The id precedence exactly as the specification words it: the
document-reference id, else the root's own id, else the first id-shaped
id element anywhere. -/
def idPrecedence (root : XmlNode) : Option String :=
  match idFromDocRefs root with
  | some v => some v
  | Option.none =>
    match idFromRoot root with
    | some v => some v
    | Option.none => idFromAnywhere root

/-- A small well-formed invoice fixture: root id `F001-00005905`, issuer
RUC `20123456789`, payer RUC `20555555555`. -/
def fixtureInvoice : XmlNode :=
  XmlNode.mk "Invoice" [] Option.none (kidsOf
    [XmlNode.mk "cbc:ID" [] (some "F001-00005905") Kids.nil,
     XmlNode.mk "cac:AccountingSupplierParty" [] Option.none (kidsOf
       [XmlNode.mk "cac:Party" [] Option.none (kidsOf
         [XmlNode.mk "cbc:ID" [("schemeID", "6")] (some " 20123456789 ") Kids.nil])]),
     XmlNode.mk "cac:AccountingCustomerParty" [] Option.none (kidsOf
       [XmlNode.mk "cbc:ID" [("schemeID", "6")] (some "20555555555") Kids.nil])])

/-- C1 fixture: the first upload is a 100-byte zip holding one entry of
exactly `MAX_TOTAL_BYTES` bytes, so the budget is exceeded while
expanding it; a plain XML upload follows. -/
def c1Input : List (String × Blob) :=
  [("a.zip", Blob.packed 100 (Entries.cons "inner.xml" (Blob.raw 209715200) Entries.nil)),
   ("b.xml", Blob.raw 10)]

/-- C3 fixture: four nested containers; the innermost holds an XML
leaf.  `z3.zip` is encountered at queue depth 3 = `MAX_DEPTH`. -/
def c3Input : List (String × Blob) :=
  [("z0.zip", Blob.packed 10 (Entries.cons "z1.zip" (Blob.packed 9 (Entries.cons "z2.zip"
    (Blob.packed 8 (Entries.cons "z3.zip" (Blob.packed 7 (Entries.cons "x.xml" (Blob.raw 5)
      Entries.nil)) Entries.nil)) Entries.nil)) Entries.nil))]

/-- C6 fixture: a workbook whose only sheet lacks every required column
except `Documento`. -/
def c6Workbook : Workbook :=
  [⟨"Hoja1", ["Documento"], [[("Documento", Cell.str "F001-1")]]⟩]

/-! ## Helper lemmas -/

theorem beginsWith_refl_append : ∀ (a rest : List Char), beginsWith a (a ++ rest) = true := by
  intro a
  induction a with
  | nil => intro rest; rfl
  | cons c cs ih => intro rest; simp [beginsWith, ih]

theorem containsSub_of_append (a b : List Char) (n : List Char)
    (h : beginsWith n (b) = true) : containsSub n (a ++ b) = true := by
  induction a with
  | nil =>
    cases b with
    | nil => simpa [containsSub] using h
    | cons c rest => simp [containsSub]; left; exact h
  | cons c cs ih =>
    simp only [List.cons_append, containsSub]
    rw [Bool.or_eq_true]
    exact Or.inr ih

theorem takeWhile_append_of_all {p : Char → Bool} :
    ∀ (a : List Char) (c : Char) (b : List Char), (∀ x ∈ a, p x = true) → p c = false →
      (a ++ c :: b).takeWhile p = a ∧ (a ++ c :: b).dropWhile p = c :: b := by
  intro a
  induction a with
  | nil =>
    intro c b _ hc
    constructor
    · simp [List.takeWhile, hc]
    · simp [List.dropWhile, hc]
  | cons x xs ih =>
    intro c b ha hc
    have hx : p x = true := ha x (by simp)
    have := ih c b (fun y hy => ha y (by simp [hy])) hc
    constructor
    · simp [List.takeWhile, hx, this.1]
    · simp [List.dropWhile, hx, this.2]

theorem isAlnumA_hyphen : isAlnumA '-' = false := by decide

theorem ne_hyphen_of_alnum {x : Char} (h : isAlnumA x = true) : (x != '-') = true := by
  rcases hx : x == '-' with _ | _
  · simp [bne, hx]
  · exfalso
    have : x = '-' := by simpa using hx
    rw [this] at h
    simp [isAlnumA_hyphen] at h

theorem pySplit1_append {a b : List Char} (ha : ∀ x ∈ a, isAlnumA x = true) :
    pySplit1 (a ++ '-' :: b) = (a, some b) := by
  have hall : ∀ x ∈ a, (x != '-') = true := fun x hx => ne_hyphen_of_alnum (ha x hx)
  have hc : (('-' : Char) != '-') = false := by decide
  have h2 := takeWhile_append_of_all a '-' b hall hc
  simp [pySplit1, h2.1, h2.2]

theorem matchesIdRegex_split {l : List Char} (h : matchesIdRegex l = true) :
    ∃ a b, l = a ++ '-' :: b ∧ a ≠ [] ∧ a.length ≤ 4 ∧ (∀ x ∈ a, isAlnumA x = true) ∧
      b ≠ [] ∧ (∀ x ∈ b, isAlnumA x = true) := by
  simp only [matchesIdRegex] at h
  split at h
  · rename_i b heq
    simp only [Bool.and_eq_true, decide_eq_true_eq, List.all_eq_true] at h
    obtain ⟨⟨⟨h1, h4⟩, hbne⟩, hball⟩ := h
    refine ⟨l.takeWhile isAlnumA, b, ?_, ?_, h4, ?_, ?_, ?_⟩
    · conv_lhs => rw [← List.takeWhile_append_dropWhile isAlnumA l]
      rw [heq]
    · intro hnil
      rw [hnil] at h1
      simp at h1
    · intro x hx
      exact List.mem_takeWhile_imp hx
    · intro hbnil
      rw [hbnil] at hbne
      simp at hbne
    · exact hball
  · exact absurd h (by simp)

theorem stripChars_data_pyStrip (s : String) : (pyStrip s).data = stripChars s.data := rfl

theorem mk_ne_empty_iff (l : List Char) : String.mk l ≠ "" ↔ l ≠ [] := by
  constructor
  · intro h hl
    apply h
    rw [hl]
  · intro h he
    apply h
    have h2 := congrArg String.data he
    simpa using h2

theorem mk_append_mk (l m : List Char) : String.mk l ++ String.mk m = String.mk (l ++ m) := rfl

theorem es_id_factura_parts {s : String} (h : es_id_factura s = true) :
    s ≠ "" ∧ countChar '-' (stripChars s.data) = 1 ∧ matchesIdRegex (stripChars s.data) = true := by
  simp only [es_id_factura] at h
  split at h
  · exact absurd h (by simp)
  · rename_i hs
    split at h
    · exact absurd h (by simp)
    · rename_i hcount
      refine ⟨by simpa using hs, ?_, h⟩
      simpa using hcount

theorem es_id_pyStrip_shape {s : String} (h : es_id_factura s = true) :
    matchesIdRegex (pyStrip s).data = true := by
  rw [stripChars_data_pyStrip]
  exact (es_id_factura_parts h).2.2

theorem matchesIdRegex_ne_nil {l : List Char} (h : matchesIdRegex l = true) : l ≠ [] := by
  obtain ⟨a, b, hl, ha, _, _, _, _⟩ := matchesIdRegex_split h
  intro hnil
  rw [hnil] at hl
  exact ha (List.append_eq_nil.mp hl.symm).1

theorem es_id_pyStrip_ne {s : String} (h : es_id_factura s = true) : pyStrip s ≠ "" := by
  have h2 := matchesIdRegex_ne_nil (es_id_pyStrip_shape h)
  intro he
  exact h2 (by rw [he])

theorem string_eta (s : String) : String.mk s.data = s := rfl

theorem truthyO_some_ne {v : String} (h : v ≠ "") : truthyO (some v) = true := by
  simp [truthyO, bne_iff_ne, h]

theorem serieNumeroOf_shape {i : String} (h : matchesIdRegex i.data = true) :
    ∃ sa nb, serieNumeroOf (some i) = (some sa, some nb) ∧ sa ≠ "" ∧ nb ≠ "" ∧
      sa ++ "-" ++ nb = i := by
  obtain ⟨a, b, hl, ha, _, haall, hb, hball⟩ := matchesIdRegex_split h
  have hne : i ≠ "" := by
    intro he
    have hdat : i.data = [] := by rw [he]
    exact matchesIdRegex_ne_nil h hdat
  have hcont : containsSub ['-'] i.data = true := by
    rw [hl]
    exact containsSub_of_append a ('-' :: b) ['-'] (by simp [beginsWith])
  have hsplit : pySplit1 i.data = (a, some b) := by
    rw [hl]
    exact pySplit1_append haall
  have hbne : (i != "") = true := bne_iff_ne.mpr hne
  refine ⟨String.mk a, String.mk b, ?_, ?_, ?_, ?_⟩
  · simp [serieNumeroOf, hbne, hcont, hsplit]
  · exact (mk_ne_empty_iff a).mpr ha
  · exact (mk_ne_empty_iff b).mpr hb
  · apply String.ext
    show (a ++ ['-']) ++ b = i.data
    rw [hl, List.append_assoc]
    rfl

theorem idFromDocRefs_shape {root : XmlNode} {v : String} (h : idFromDocRefs root = some v) :
    ∃ c, es_id_factura c = true ∧ v = pyStrip c := by
  obtain ⟨dr, _, hdr⟩ := List.exists_of_findSome?_eq_some h
  dsimp only at hdr
  split at hdr
  · split at hdr
    · rename_i cand heq
      split at hdr
      · rename_i hcond
        refine ⟨cand, ?_, ?_⟩
        · exact (Bool.and_eq_true _ _ |>.mp hcond).2
        · exact (Option.some_inj.mp hdr).symm
      · exact absurd hdr (by simp)
    · exact absurd hdr (by simp)
  · exact absurd hdr (by simp)

theorem idFromRoot_shape {root : XmlNode} {v : String} (h : idFromRoot root = some v) :
    ∃ c, es_id_factura c = true ∧ v = pyStrip c := by
  simp only [idFromRoot] at h
  split at h
  · rename_i cand heq
    split at h
    · rename_i hcond
      refine ⟨cand, (Bool.and_eq_true _ _ |>.mp hcond).2, (Option.some_inj.mp h).symm⟩
    · exact absurd h (by simp)
  · exact absurd h (by simp)

theorem idFromAnywhere_shape {root : XmlNode} {v : String} (h : idFromAnywhere root = some v) :
    ∃ c, es_id_factura c = true ∧ v = pyStrip c := by
  obtain ⟨tag, _, htag⟩ := List.exists_of_findSome?_eq_some h
  split at htag
  · rename_i t heq
    split at htag
    · rename_i hcond
      refine ⟨t, (Bool.and_eq_true _ _ |>.mp hcond).2, (Option.some_inj.mp htag).symm⟩
    · exact absurd htag (by simp)
  · exact absurd htag (by simp)

theorem extraerId_shape {root : XmlNode} {v : String} (h : extraerId root = some v) :
    ∃ c, es_id_factura c = true ∧ v = pyStrip c := by
  rcases hd : idFromDocRefs root with _ | v1
  · rcases hr : idFromRoot root with _ | v2
    · have hh : extraerId root = idFromAnywhere root := by
        simp [extraerId, hd, hr, truthyO]
      rw [hh] at h
      exact idFromAnywhere_shape h
    · obtain ⟨c, hc, hv2⟩ := idFromRoot_shape hr
      have hne : v2 ≠ "" := hv2 ▸ es_id_pyStrip_ne hc
      have hh : extraerId root = some v2 := by
        simp [extraerId, hd, hr, truthyO, bne_iff_ne, hne]
      rw [hh] at h
      have hv : v2 = v := Option.some_inj.mp h
      exact ⟨c, hc, hv ▸ hv2⟩
  · obtain ⟨c, hc, hv1⟩ := idFromDocRefs_shape hd
    have hne : v1 ≠ "" := hv1 ▸ es_id_pyStrip_ne hc
    have hh : extraerId root = some v1 := by
      simp [extraerId, hd, truthyO, bne_iff_ne, hne]
    rw [hh] at h
    have hv : v1 = v := Option.some_inj.mp h
    exact ⟨c, hc, hv ▸ hv1⟩

theorem extraer_wf_id (root : XmlNode) (raw : String) :
    (extraer_datos_xml_bytes (XmlBytes.wellFormed root raw)).id_factura = extraerId root := rfl

theorem extraer_wf_serie (root : XmlNode) (raw : String) :
    (extraer_datos_xml_bytes (XmlBytes.wellFormed root raw)).serie =
      (serieNumeroOf (extraerId root)).1 := rfl

theorem extraer_wf_numero (root : XmlNode) (raw : String) :
    (extraer_datos_xml_bytes (XmlBytes.wellFormed root raw)).numero =
      (serieNumeroOf (extraerId root)).2 := rfl

theorem extraer_wf_ruc (root : XmlNode) (raw : String) :
    (extraer_datos_xml_bytes (XmlBytes.wellFormed root raw)).ruc_emisor =
      find_ruc_any root rucEmisorPaths := rfl

theorem extraer_id_shape {x : XmlBytes} {i : String}
    (h : (extraer_datos_xml_bytes x).id_factura = some i) : matchesIdRegex i.data = true := by
  cases x with
  | malformed raw => exact absurd h (by simp [extraer_datos_xml_bytes, emptyExtracted])
  | wellFormed root raw =>
    rw [extraer_wf_id] at h
    obtain ⟨c, hc, hv⟩ := extraerId_shape h
    rw [hv]
    exact es_id_pyStrip_shape hc

theorem extraer_id_ne {x : XmlBytes} {i : String}
    (h : (extraer_datos_xml_bytes x).id_factura = some i) : i ≠ "" := by
  have hm := extraer_id_shape h
  intro he
  exact matchesIdRegex_ne_nil hm (by rw [he])

theorem find_ruc_any_ne {root : XmlNode} {ps : List (XmlNode → List XmlNode)} {v : String}
    (h : find_ruc_any root ps = some v) : v ≠ "" := by
  obtain ⟨p, _, hp⟩ := List.exists_of_findSome?_eq_some h
  obtain ⟨tag, _, htag⟩ := List.exists_of_findSome?_eq_some hp
  dsimp only at htag
  split at htag
  · split at htag
    · rename_i hval
      have hv : _ = v := Option.some_inj.mp htag
      rw [← hv]
      simpa [bne_iff_ne] using hval
    · exact absurd htag (by simp)
  · exact absurd htag (by simp)

theorem extraer_ruc_ne {x : XmlBytes} {r : String}
    (h : (extraer_datos_xml_bytes x).ruc_emisor = some r) : r ≠ "" := by
  cases x with
  | malformed raw => exact absurd h (by simp [extraer_datos_xml_bytes, emptyExtracted])
  | wellFormed root raw =>
    rw [extraer_wf_ruc] at h
    exact find_ruc_any_ne h

/-- The serie/numero reconstruction behind claim C10, shared with the
matcher refinement: an extracted id splits into the non-empty serie and
numero fields whose hyphen-joined concatenation is the id. -/
theorem extraer_serie_numero {x : XmlBytes} {i : String}
    (h : (extraer_datos_xml_bytes x).id_factura = some i) :
    ∃ sa nb, (extraer_datos_xml_bytes x).serie = some sa ∧
      (extraer_datos_xml_bytes x).numero = some nb ∧
      sa ≠ "" ∧ nb ≠ "" ∧ sa ++ "-" ++ nb = i := by
  cases x with
  | malformed raw => exact absurd h (by simp [extraer_datos_xml_bytes, emptyExtracted])
  | wellFormed root raw =>
    rw [extraer_wf_id] at h
    have hmi : matchesIdRegex i.data = true := by
      obtain ⟨c, hc, hv⟩ := extraerId_shape h
      rw [hv]
      exact es_id_pyStrip_shape hc
    obtain ⟨sa, nb, hsn, hsa, hnb, hcat⟩ := serieNumeroOf_shape hmi
    refine ⟨sa, nb, ?_, ?_, hsa, hnb, hcat⟩
    · rw [extraer_wf_serie, h, hsn]
    · rw [extraer_wf_numero, h, hsn]

theorem keyLt_irrefl (p : Int × Int) : ¬ keyLt p p := by
  obtain ⟨a, b⟩ := p
  simp only [keyLt]
  omega

theorem keyLt_trans {p q r : Int × Int} (h1 : keyLt p q) (h2 : keyLt q r) : keyLt p r := by
  obtain ⟨a, b⟩ := p
  obtain ⟨c, d⟩ := q
  obtain ⟨e, f⟩ := r
  simp only [keyLt] at *
  omega

theorem notLt_trans {p q r : Int × Int} (h1 : ¬ keyLt p q) (h2 : ¬ keyLt q r) :
    ¬ keyLt p r := by
  obtain ⟨a, b⟩ := p
  obtain ⟨c, d⟩ := q
  obtain ⟨e, f⟩ := r
  simp only [keyLt] at *
  omega

theorem keyLt_iff_cond (bs bl common len : Int) :
    keyLt (bs, bl) (common, len) ↔ (common > bs ∨ (common = bs ∧ len > bl)) := by
  simp only [keyLt]
  omega

theorem bestLoop_invariant (numX : List Char) :
    ∀ (cands : List String) (best : Option String) (bs bl : Int),
      (∀ x, best = some x → suffixKey numX x = (bs, bl)) →
      (best = none → (bs, bl) = (-1, -1)) →
      (¬ keyLt (bs, bl) (-1, -1)) →
      ((∀ r, bestLoop numX cands best bs bl = some r →
          ((r ∈ cands ∨ best = some r) ∧
            ¬ keyLt (suffixKey numX r) (bs, bl) ∧
            ∀ c ∈ cands, ¬ keyLt (suffixKey numX r) (suffixKey numX c))) ∧
        (bestLoop numX cands best bs bl = none →
          best = none ∧ ∀ c ∈ cands, suffixKey numX c = (-1, -1))) := by
  intro cands
  induction cands with
  | nil =>
    intro best bs bl hkey _ _
    constructor
    · intro r hr
      simp only [bestLoop] at hr
      refine ⟨Or.inr hr, ?_, ?_⟩
      · rw [hkey r hr]
        exact keyLt_irrefl _
      · intro c hc
        cases hc
    · intro hr
      simp only [bestLoop] at hr
      exact ⟨hr, by intro c hc; cases hc⟩
  | cons cand rest ih =>
    intro best bs bl hkey hnone hge
    rcases hsp : (split_idfact cand).2 with _ | cn
    · have hkc : suffixKey numX cand = (-1, -1) := by simp [suffixKey, hsp]
      have hstep : bestLoop numX (cand :: rest) best bs bl = bestLoop numX rest best bs bl := by
        simp [bestLoop, hsp]
      rw [hstep]
      obtain ⟨IH1, IH2⟩ := ih best bs bl hkey hnone hge
      constructor
      · intro r hr
        obtain ⟨hmem, hge2, hmax⟩ := IH1 r hr
        refine ⟨?_, hge2, ?_⟩
        · rcases hmem with hmm | hmm
          · exact Or.inl (List.mem_cons_of_mem _ hmm)
          · exact Or.inr hmm
        · intro c hc
          rcases List.mem_cons.mp hc with rfl | hc2
          · rw [hkc]
            exact notLt_trans hge2 hge
          · exact hmax c hc2
      · intro hr
        obtain ⟨hbn, hall⟩ := IH2 hr
        refine ⟨hbn, ?_⟩
        intro c hc
        rcases List.mem_cons.mp hc with rfl | hc2
        · exact hkc
        · exact hall c hc2
    · by_cases hcn : cn = ""
      · have hkc : suffixKey numX cand = (-1, -1) := by simp [suffixKey, hsp, hcn]
        have hstep : bestLoop numX (cand :: rest) best bs bl = bestLoop numX rest best bs bl := by
          simp [bestLoop, hsp, hcn]
        rw [hstep]
        obtain ⟨IH1, IH2⟩ := ih best bs bl hkey hnone hge
        constructor
        · intro r hr
          obtain ⟨hmem, hge2, hmax⟩ := IH1 r hr
          refine ⟨?_, hge2, ?_⟩
          · rcases hmem with hmm | hmm
            · exact Or.inl (List.mem_cons_of_mem _ hmm)
            · exact Or.inr hmm
          · intro c hc
            rcases List.mem_cons.mp hc with rfl | hc2
            · rw [hkc]
              exact notLt_trans hge2 hge
            · exact hmax c hc2
        · intro hr
          obtain ⟨hbn, hall⟩ := IH2 hr
          refine ⟨hbn, ?_⟩
          intro c hc
          rcases List.mem_cons.mp hc with rfl | hc2
          · exact hkc
          · exact hall c hc2
      · have hbne : (cn == "") = false := by
          rcases hv : cn == "" with _ | _
          · rfl
          · exact absurd (by simpa using hv) hcn
        have hkc : suffixKey numX cand =
            (((commonSuffixLen cn.data numX : Nat) : Int), (cn.length : Int)) := by
          simp [suffixKey, hsp, hbne]
        have hcnn : (0 : Int) ≤ ((commonSuffixLen cn.data numX : Nat) : Int) :=
          Int.ofNat_nonneg _
        by_cases hupd : ((commonSuffixLen cn.data numX : Nat) : Int) > bs ∨
            (((commonSuffixLen cn.data numX : Nat) : Int) = bs ∧ (cn.length : Int) > bl)
        · have hstep : bestLoop numX (cand :: rest) best bs bl =
              bestLoop numX rest (some cand) (((commonSuffixLen cn.data numX : Nat) : Int))
                (cn.length : Int) := by
            simp only [bestLoop, hsp, hbne]
            rw [if_neg (by simp [hcn]), if_pos hupd]
          rw [hstep]
          have hkey2 : ∀ x, some cand = some x → suffixKey numX x =
              (((commonSuffixLen cn.data numX : Nat) : Int), (cn.length : Int)) := by
            intro x hx
            rw [← Option.some_inj.mp hx]
            exact hkc
          have hge2 : ¬ keyLt (((commonSuffixLen cn.data numX : Nat) : Int),
              (cn.length : Int)) (-1, -1) := by
            simp only [keyLt]
            omega
          obtain ⟨IH1, IH2⟩ := ih (some cand) _ _ hkey2 (by intro hx; cases hx) hge2
          constructor
          · intro r hr
            obtain ⟨hmem, hge3, hmax⟩ := IH1 r hr
            have hblt : keyLt (bs, bl) (((commonSuffixLen cn.data numX : Nat) : Int),
                (cn.length : Int)) := (keyLt_iff_cond _ _ _ _).mpr hupd
            refine ⟨?_, ?_, ?_⟩
            · rcases hmem with hmm | hmm
              · exact Or.inl (List.mem_cons_of_mem _ hmm)
              · exact Or.inl (by rw [← Option.some_inj.mp hmm]; exact List.mem_cons_self _ _)
            · intro hcon
              exact hge3 (keyLt_trans hcon hblt)
            · intro c hc
              rcases List.mem_cons.mp hc with rfl | hc2
              · rw [hkc]
                exact hge3
              · exact hmax c hc2
          · intro hr
            obtain ⟨hbn, _⟩ := IH2 hr
            cases hbn
        · have hstep : bestLoop numX (cand :: rest) best bs bl =
              bestLoop numX rest best bs bl := by
            simp only [bestLoop, hsp, hbne]
            rw [if_neg (by simp [hcn]), if_neg hupd]
          rw [hstep]
          have hnotlt : ¬ keyLt (bs, bl) (((commonSuffixLen cn.data numX : Nat) : Int),
              (cn.length : Int)) := fun hl => hupd ((keyLt_iff_cond _ _ _ _).mp hl)
          obtain ⟨IH1, IH2⟩ := ih best bs bl hkey hnone hge
          constructor
          · intro r hr
            obtain ⟨hmem, hge3, hmax⟩ := IH1 r hr
            refine ⟨?_, hge3, ?_⟩
            · rcases hmem with hmm | hmm
              · exact Or.inl (List.mem_cons_of_mem _ hmm)
              · exact Or.inr hmm
            · intro c hc
              rcases List.mem_cons.mp hc with rfl | hc2
              · rw [hkc]
                exact notLt_trans hge3 hnotlt
              · exact hmax c hc2
          · intro hr
            exfalso
            obtain ⟨hbn, _⟩ := IH2 hr
            have hinit := hnone hbn
            rw [hinit] at hnotlt
            apply hnotlt
            simp only [keyLt]
            omega

instance candOk_decidable (c : String) : Decidable (candOk c) := by
  unfold candOk
  infer_instance

theorem candOk_key (numX : List Char) {c : String} (h : candOk c) :
    suffixKey numX c ≠ (-1, -1) := by
  obtain ⟨h1, h2⟩ := h
  rcases hsp : (split_idfact c).2 with _ | cn
  · exact absurd hsp h1
  · have hcn : cn ≠ "" := by
      intro he
      rw [he] at hsp
      exact h2 hsp
    have hbne : (cn == "") = false := beq_eq_false_iff_ne.mpr hcn
    simp only [suffixKey, hsp, hbne, Bool.false_eq_true, if_false, ne_eq, Prod.mk.injEq,
      not_and]
    intro he
    omega

/-- C5 (confirmed).  For a declared digit string and candidates each of
`SERIES-NUMBER` shape, `_best_by_numeric_suffix` always returns some
candidate of the list, and that candidate maximises the pair
(common-suffix length with the declared number, canonical-number length)
in the lexicographic order `keyLt` — the greatest common suffix computed
least-significant-first with ties broken by the longer canonical number.
The concrete fixture of the specification is decided alongside. -/
theorem C5_suffix_reconciler :
    (∀ (numeroExcel : String) (cands : List String),
      cands ≠ [] → (∀ c ∈ cands, candOk c) →
      ∃ r, best_by_numeric_suffix numeroExcel cands = some r ∧ r ∈ cands ∧
        ∀ c ∈ cands,
          ¬ keyLt (suffixKey (nzStr numeroExcel).data r) (suffixKey (nzStr numeroExcel).data c)) ∧
    best_by_numeric_suffix "5905" ["F001-00005905", "F001-15905"] = some "F001-00005905" := by
  constructor
  · intro numeroExcel cands hne hok
    have hinv := bestLoop_invariant (nzStr numeroExcel).data cands none (-1) (-1)
      (by intro x hx; cases hx) (by intro _; rfl) (keyLt_irrefl _)
    have hempty : cands.isEmpty = false := by
      cases cands with
      | nil => exact absurd rfl hne
      | cons a as => rfl
    rcases hres : bestLoop (nzStr numeroExcel).data cands none (-1) (-1) with _ | r
    · exfalso
      obtain ⟨_, hall⟩ := hinv.2 hres
      cases cands with
      | nil => exact hne rfl
      | cons c0 cs =>
        exact candOk_key (nzStr numeroExcel).data (hok c0 (by simp))
          (hall c0 (by simp))
    · obtain ⟨hmem, _, hmax⟩ := hinv.1 r hres
      refine ⟨r, ?_, ?_, hmax⟩
      · simp only [best_by_numeric_suffix, hempty, Bool.false_eq_true, if_false]
        exact hres
      · rcases hmem with hmm | hmm
        · exact hmm
        · cases hmm
  · decide

/-- C5 witness: the general theorem applied at the specification's own
fixture. -/
theorem C5_suffix_reconciler_witness :
    ∃ r, best_by_numeric_suffix "5905" ["F001-00005905", "F001-15905"] = some r ∧
      r ∈ ["F001-00005905", "F001-15905"] ∧
      ∀ c ∈ ["F001-00005905", "F001-15905"],
        ¬ keyLt (suffixKey (nzStr "5905").data r) (suffixKey (nzStr "5905").data c) :=
  C5_suffix_reconciler.1 "5905" ["F001-00005905", "F001-15905"] (by decide) (by decide)

theorem find?_congr {α : Type} {p q : α → Bool} (h : ∀ a, p a = q a) :
    ∀ l : List α, l.find? p = l.find? q := by
  intro l
  induction l with
  | nil => rfl
  | cons a as ih =>
    rw [List.find?_cons, List.find?_cons, h a, ih]

theorem any_congr {α : Type} {p q : α → Bool} (h : ∀ a, p a = q a) :
    ∀ l : List α, l.any p = l.any q := by
  intro l
  induction l with
  | nil => rfl
  | cons a as ih => simp [List.any_cons, h a, ih]

theorem contiene_eq_spec (p : PdfFile) {r sa nb : String}
    (hr : r ≠ "") (hs : sa ≠ "") (hn : nb ≠ "") :
    pdf_contiene_datos p.content (some r) (some sa) (some nb) = specPageHit p sa nb r := by
  rcases hc : p.content with _ | pages
  · simp [pdf_contiene_datos, specPageHit, hc]
  · simp only [pdf_contiene_datos, specPageHit, hc, Option.getD_some]
    apply any_congr
    intro text
    simp [truthyO_some_ne hr, truthyO_some_ne hs, truthyO_some_ne hn]

theorem statusPairs_matched (i : String) (j : Nat) (pn : String) (sts : List XStatus) :
    statusPairs (XStatus.matched i j pn :: sts) = (i, pn) :: statusPairs sts := rfl

theorem statusPairs_failed (fn : String) (sts : List XStatus) :
    statusPairs (XStatus.failed fn :: sts) = statusPairs sts := rfl

theorem statusPairs_unmatched (fn : String) (sts : List XStatus) :
    statusPairs (XStatus.unmatched fn :: sts) = statusPairs sts := rfl

theorem statusErrs_matched (i : String) (j : Nat) (pn : String) (sts : List XStatus) :
    statusErrs (XStatus.matched i j pn :: sts) = statusErrs sts := rfl

theorem statusErrs_failed (fn : String) (sts : List XStatus) :
    statusErrs (XStatus.failed fn :: sts) = ParErr.extractFail fn :: statusErrs sts := rfl

theorem statusErrs_unmatched (fn : String) (sts : List XStatus) :
    statusErrs (XStatus.unmatched fn :: sts) = ParErr.sinPdf fn :: statusErrs sts := rfl

theorem statusIdxs_matched (i : String) (j : Nat) (pn : String) (sts : List XStatus) :
    statusIdxs (XStatus.matched i j pn :: sts) = j :: statusIdxs sts := rfl

theorem statusIdxs_failed (fn : String) (sts : List XStatus) :
    statusIdxs (XStatus.failed fn :: sts) = statusIdxs sts := rfl

theorem statusIdxs_unmatched (fn : String) (sts : List XStatus) :
    statusIdxs (XStatus.unmatched fn :: sts) = statusIdxs sts := rfl

theorem emparejar_refines (pdfs : List PdfFile) (dfUbi : Option (List UbiRow)) :
    ∀ (xmls : List XmlFile) (usados : List Nat),
      (emparejarLoop pdfs dfUbi xmls usados).matchLines =
        statusPairs (specStatuses pdfs xmls usados) ∧
      (emparejarLoop pdfs dfUbi xmls usados).errores =
        statusErrs (specStatuses pdfs xmls usados) := by
  intro xmls
  induction xmls with
  | nil =>
    intro usados
    exact ⟨rfl, rfl⟩
  | cons x rest ih =>
    intro usados
    rcases hid : (extraer_datos_xml_bytes x.content).id_factura with _ | i
    · have hcode : emparejarLoop pdfs dfUbi (x :: rest) usados =
          { emparejarLoop pdfs dfUbi rest usados with
            errores := ParErr.extractFail x.filename ::
              (emparejarLoop pdfs dfUbi rest usados).errores } := by
        simp [emparejarLoop, hid, truthyO]
      have hspec : specStatuses pdfs (x :: rest) usados =
          XStatus.failed x.filename :: specStatuses pdfs rest usados := by
        simp [specStatuses, hid]
      rw [hcode, hspec, statusPairs_failed, statusErrs_failed]
      exact ⟨(ih usados).1, by simp [(ih usados).2]⟩
    · have hine : i ≠ "" := extraer_id_ne hid
      rcases hruc : (extraer_datos_xml_bytes x.content).ruc_emisor with _ | r
      · have hcode : emparejarLoop pdfs dfUbi (x :: rest) usados =
            { emparejarLoop pdfs dfUbi rest usados with
              errores := ParErr.extractFail x.filename ::
                (emparejarLoop pdfs dfUbi rest usados).errores } := by
          simp [emparejarLoop, hid, hruc, truthyO, bne_iff_ne, hine]
        have hspec : specStatuses pdfs (x :: rest) usados =
            XStatus.failed x.filename :: specStatuses pdfs rest usados := by
          simp [specStatuses, hid, hruc]
        rw [hcode, hspec, statusPairs_failed, statusErrs_failed]
        exact ⟨(ih usados).1, by simp [(ih usados).2]⟩
      · have hrne : r ≠ "" := extraer_ruc_ne hruc
        obtain ⟨sa, nb, hsa, hnb, hsane, hnbne, _⟩ := extraer_serie_numero hid
        have hfind : (pdfs.enum.find? fun jp =>
              !usados.contains jp.1 &&
              pdf_contiene_datos jp.2.content (some r)
                (extraer_datos_xml_bytes x.content).serie
                (extraer_datos_xml_bytes x.content).numero) =
            (pdfs.enum.find? fun jp =>
              !usados.contains jp.1 &&
              specPageHit jp.2 (((extraer_datos_xml_bytes x.content).serie).getD "")
                (((extraer_datos_xml_bytes x.content).numero).getD "") r) := by
          apply find?_congr
          intro jp
          rw [hsa, hnb]
          simp only [Option.getD_some]
          rw [contiene_eq_spec jp.2 hrne hsane hnbne]
        rcases hf : (pdfs.enum.find? fun jp =>
            !usados.contains jp.1 &&
            specPageHit jp.2 (((extraer_datos_xml_bytes x.content).serie).getD "")
              (((extraer_datos_xml_bytes x.content).numero).getD "") r) with _ | jp
        · have hml : (emparejarLoop pdfs dfUbi (x :: rest) usados).matchLines =
              (emparejarLoop pdfs dfUbi rest usados).matchLines := by
            simp only [emparejarLoop, truthyO_some_ne hine, truthyO_some_ne hrne, hid, hruc,
              Bool.not_true, Bool.or_self, Bool.false_eq_true, if_false]
            rw [hfind, hf]
          have herr : (emparejarLoop pdfs dfUbi (x :: rest) usados).errores =
              ParErr.sinPdf x.filename :: (emparejarLoop pdfs dfUbi rest usados).errores := by
            simp only [emparejarLoop, truthyO_some_ne hine, truthyO_some_ne hrne, hid, hruc,
              Bool.not_true, Bool.or_self, Bool.false_eq_true, if_false]
            rw [hfind, hf]
          have hspec : specStatuses pdfs (x :: rest) usados =
              XStatus.unmatched x.filename :: specStatuses pdfs rest usados := by
            simp only [specStatuses, hid, hruc]
            rw [hf]
          rw [hml, herr, hspec, statusPairs_unmatched, statusErrs_unmatched]
          exact ⟨(ih usados).1, by simp [(ih usados).2]⟩
        · obtain ⟨j, p⟩ := jp
          have hml : (emparejarLoop pdfs dfUbi (x :: rest) usados).matchLines =
              (i, p.filename) :: (emparejarLoop pdfs dfUbi rest (usados ++ [j])).matchLines := by
            simp only [emparejarLoop, truthyO_some_ne hine, truthyO_some_ne hrne, hid, hruc,
              Bool.not_true, Bool.or_self, Bool.false_eq_true, if_false]
            rw [hfind, hf]
            simp [hid]
          have herr : (emparejarLoop pdfs dfUbi (x :: rest) usados).errores =
              (emparejarLoop pdfs dfUbi rest (usados ++ [j])).errores := by
            simp only [emparejarLoop, truthyO_some_ne hine, truthyO_some_ne hrne, hid, hruc,
              Bool.not_true, Bool.or_self, Bool.false_eq_true, if_false]
            rw [hfind, hf]
          have hspec : specStatuses pdfs (x :: rest) usados =
              XStatus.matched i j p.filename :: specStatuses pdfs rest (usados ++ [j]) := by
            simp only [specStatuses, hid, hruc]
            rw [hf]
          rw [hml, herr, hspec, statusPairs_matched, statusErrs_matched]
          exact ⟨by simp [(ih (usados ++ [j])).1], (ih (usados ++ [j])).2⟩

theorem spec_idxs_fresh (pdfs : List PdfFile) :
    ∀ (xmls : List XmlFile) (consumed : List Nat),
      (∀ j ∈ statusIdxs (specStatuses pdfs xmls consumed), j ∉ consumed) ∧
      (statusIdxs (specStatuses pdfs xmls consumed)).Nodup := by
  intro xmls
  induction xmls with
  | nil =>
    intro consumed
    refine ⟨?_, ?_⟩
    · intro j hj
      exact absurd hj (by simp [specStatuses, statusIdxs])
    · simp [specStatuses, statusIdxs]
  | cons x rest ih =>
    intro consumed
    rcases hid : (extraer_datos_xml_bytes x.content).id_factura with _ | i
    · have hspec : specStatuses pdfs (x :: rest) consumed =
          XStatus.failed x.filename :: specStatuses pdfs rest consumed := by
        simp [specStatuses, hid]
      rw [hspec, statusIdxs_failed]
      exact ih consumed
    · rcases hruc : (extraer_datos_xml_bytes x.content).ruc_emisor with _ | r
      · have hspec : specStatuses pdfs (x :: rest) consumed =
            XStatus.failed x.filename :: specStatuses pdfs rest consumed := by
          simp [specStatuses, hid, hruc]
        rw [hspec, statusIdxs_failed]
        exact ih consumed
      · rcases hf : (pdfs.enum.find? fun jp =>
            !consumed.contains jp.1 &&
            specPageHit jp.2 (((extraer_datos_xml_bytes x.content).serie).getD "")
              (((extraer_datos_xml_bytes x.content).numero).getD "") r) with _ | jp
        · have hspec : specStatuses pdfs (x :: rest) consumed =
              XStatus.unmatched x.filename :: specStatuses pdfs rest consumed := by
            simp only [specStatuses, hid, hruc]
            rw [hf]
          rw [hspec, statusIdxs_unmatched]
          exact ih consumed
        · obtain ⟨j, p⟩ := jp
          have hspec : specStatuses pdfs (x :: rest) consumed =
              XStatus.matched i j p.filename :: specStatuses pdfs rest (consumed ++ [j]) := by
            simp only [specStatuses, hid, hruc]
            rw [hf]
          have hpred := List.find?_some hf
          have hj : j ∉ consumed := by
            have hleft := (Bool.and_eq_true _ _ |>.mp hpred).1
            simp only [Bool.not_eq_true'] at hleft
            simp at hleft
            exact hleft
          obtain ⟨ihf, ihn⟩ := ih (consumed ++ [j])
          rw [hspec, statusIdxs_matched]
          constructor
          · intro k hk
            rcases List.mem_cons.mp hk with rfl | hk2
            · exact hj
            · intro hkc
              exact ihf k hk2 (by simp [hkc])
          · refine List.Nodup.cons ?_ ihn
            intro hjmem
            exact ihf j hjmem (by simp)

/-- C2 (confirmed).  `emparejar_y_reportar` realises exactly the greedy
assignment the specification describes (`specStatuses`): records in
order, a record with id and issuer RUC present takes the first
not-yet-consumed PDF in list order on which some single page contains
the series, number and issuer RUC as substrings, and that PDF index is
consumed for all later records; the produced match lines and error
entries (extraction failure / unmatched) coincide with the
specification-side assignment, and the consumed indices are pairwise
distinct (one-to-one). -/
theorem C2_content_matcher :
    ∀ (xmls : List XmlFile) (pdfs : List PdfFile) (dfUbi : Option (List UbiRow)),
      (emparejar_y_reportar xmls pdfs dfUbi).matchLines =
        statusPairs (specStatuses pdfs xmls []) ∧
      (emparejar_y_reportar xmls pdfs dfUbi).errores =
        statusErrs (specStatuses pdfs xmls []) ∧
      (statusIdxs (specStatuses pdfs xmls [])).Nodup := by
  intro xmls pdfs dfUbi
  obtain ⟨h1, h2⟩ := emparejar_refines pdfs dfUbi xmls []
  exact ⟨h1, h2, (spec_idxs_fresh pdfs xmls []).2⟩

theorem qWeight_eq_zero {q : List (String × Blob × Nat)} (h : qWeight q = 0) : q = [] := by
  cases q with
  | nil => rfl
  | cons it rest =>
    obtain ⟨n, b, d⟩ := it
    have := Blob.weight_pos b
    simp only [qWeight] at h
    omega

theorem collectGo_fuel (maxDepth : Nat) :
    ∀ (fuel fuel' : Nat) (q : List (String × Blob × Nat)) (st : CollectSt),
      qWeight q ≤ fuel → qWeight q ≤ fuel' →
      collectGo maxDepth fuel q st = collectGo maxDepth fuel' q st := by
  intro fuel
  induction fuel with
  | zero =>
    intro fuel' q st h _
    have hq : q = [] := qWeight_eq_zero (Nat.le_zero.mp h)
    subst hq
    cases fuel' <;> rfl
  | succ f ihf =>
    intro fuel' q st h h'
    cases q with
    | nil => cases fuel' <;> rfl
    | cons it rest =>
      obtain ⟨name, b, d⟩ := it
      have hb := Blob.weight_pos b
      simp only [qWeight] at h h'
      cases fuel' with
      | zero => omega
      | succ f' =>
        by_cases hxml : (lowerExt name == ".xml") = true
        · simp only [collectGo, hxml, if_true]
          exact ihf f' rest _ (by omega) (by omega)
        · rw [Bool.not_eq_true] at hxml
          by_cases hpdf : (lowerExt name == ".pdf") = true
          · simp only [collectGo, hxml, hpdf, Bool.false_eq_true, if_false, if_true]
            exact ihf f' rest _ (by omega) (by omega)
          · rw [Bool.not_eq_true] at hpdf
            by_cases harc : isArchive name = true
            · by_cases hdep : d ≥ maxDepth
              · simp only [collectGo, hxml, hpdf, harc, hdep, Bool.false_eq_true,
                  if_false, if_true]
                exact ihf f' rest _ (by omega) (by omega)
              · rcases b with n | ⟨sz, es⟩
                · simp only [Blob.weight] at h h'
                  simp only [collectGo, hxml, hpdf, harc, hdep, Bool.false_eq_true,
                    if_false, if_true]
                  exact ihf f' rest _ (by omega) (by omega)
                · simp only [Blob.weight] at h h'
                  have hew := expandEntries_weight name d es st.total
                  simp only [collectGo, hxml, hpdf, harc, hdep, Bool.false_eq_true,
                    if_false, if_true]
                  refine ihf f' _ _ ?_ ?_
                  · rw [qWeight_append]
                    omega
                  · rw [qWeight_append]
                    omega
            · rw [Bool.not_eq_true] at harc
              simp only [collectGo, hxml, hpdf, harc, Bool.false_eq_true, if_false]
              exact ihf f' rest _ (by omega) (by omega)

theorem isArchive_not_xml {name : String} (h : isArchive name = true) :
    (lowerExt name == ".xml") = false ∧ (lowerExt name == ".pdf") = false := by
  have hmem : lowerExt name ∈ [".zip", ".tar", ".gz", ".tgz", ".7z", ".rar"] := by
    simpa [isArchive, ALLOWED_ARCHIVE_EXTS] using h
  simp only [List.mem_cons, List.not_mem_nil, or_false] at hmem
  rcases hmem with h1 | h1 | h1 | h1 | h1 | h1 <;> rw [h1] <;> exact ⟨rfl, rfl⟩

/-- Pruning step: an archive at queue depth at or beyond the ceiling is
skipped with a warning, and the loop continues on the remaining queue. -/
theorem collectLoop_skip (maxDepth : Nat) (name : String) (b : Blob) (depth : Nat)
    (rest : List (String × Blob × Nat)) (st : CollectSt)
    (harc : isArchive name = true) (hdep : maxDepth ≤ depth) :
    collectLoop maxDepth ((name, b, depth) :: rest) st =
      collectLoop maxDepth rest { st with warns := st.warns ++ [name] } := by
  obtain ⟨hx, hp⟩ := isArchive_not_xml harc
  have hb := Blob.weight_pos b
  show collectGo maxDepth (qWeight ((name, b, depth) :: rest)) ((name, b, depth) :: rest) st = _
  have hq : qWeight ((name, b, depth) :: rest) = (b.weight - 1 + qWeight rest) + 1 := by
    simp only [qWeight]
    omega
  rw [hq]
  have hge : depth ≥ maxDepth := hdep
  simp only [collectGo, hx, hp, harc, hge, Bool.false_eq_true, if_false, if_true]
  exact collectGo_fuel maxDepth _ _ rest _ (by omega) (le_refl _)

/-- Expansion step: an archive strictly below the ceiling is expanded;
its decoded entries are appended to the queue, the running total is
advanced, and a decode/budget failure is recorded (without stopping the
loop). -/
theorem collectLoop_expand (maxDepth : Nat) (name : String) (sz : Nat) (es : Entries)
    (depth : Nat) (rest : List (String × Blob × Nat)) (st : CollectSt)
    (harc : isArchive name = true) (hdep : depth < maxDepth) :
    collectLoop maxDepth ((name, Blob.packed sz es, depth) :: rest) st =
      collectLoop maxDepth (rest ++ (expandEntries name depth es st.total).2.1)
        { st with total := (expandEntries name depth es st.total).1
                  errs := if (expandEntries name depth es st.total).2.2 then st.errs
                          else st.errs ++ [name] } := by
  obtain ⟨hx, hp⟩ := isArchive_not_xml harc
  have hew := expandEntries_weight name depth es st.total
  show collectGo maxDepth (qWeight ((name, Blob.packed sz es, depth) :: rest))
      ((name, Blob.packed sz es, depth) :: rest) st = _
  have hq : qWeight ((name, Blob.packed sz es, depth) :: rest) =
      (es.weight + qWeight rest) + 1 := by
    simp only [qWeight, Blob.weight]
    omega
  rw [hq]
  have hnge : ¬ depth ≥ maxDepth := by omega
  simp only [collectGo, hx, hp, harc, hnge, Bool.false_eq_true, if_false, if_true]
  refine collectGo_fuel maxDepth _ _ _ _ ?_ (le_refl _)
  rw [qWeight_append]
  omega

/-- C1 (code bug).  Exceeding the byte budget *during expansion* does
not abort the batch: `_safe_add`'s `ValueError` is swallowed by the
`except Exception` handler around `_dispatch_iter`, recorded as a
per-container read error, and the function returns a partial
`(xml_files, pdf_files)` result.  On `c1Input` the cumulative total
(110 + 209715200 bytes) exceeds `MAX_TOTAL_BYTES`, yet the call returns
`Except.ok` with `b.xml` collected and only an error entry for
`a.zip`. -/
theorem C1_budget_not_aborting :
    ∃ st, colectar_xml_pdf_desde_adjuntos c1Input MAX_DEPTH = Except.ok st ∧
      st.xmls.map Prod.fst = ["b.xml"] ∧ st.pdfs = [] ∧ st.errs = ["a.zip"] ∧
      110 + 209715200 > MAX_TOTAL_BYTES :=
  ⟨⟨[("b.xml", Blob.raw 10)], [], [], ["a.zip"], 110⟩, rfl, rfl, rfl, rfl, by decide⟩

/-- C3 counterexample.  With the default `MAX_DEPTH = 3`, the container
`z3.zip` — encountered at depth equal to `MAX_DEPTH` — is *not*
expanded: the XML inside it is never collected and a skip warning naming
it is recorded (the claim asserts a container at depth `max_depth` still
expands).  The batch itself completes normally. -/
theorem C3_depth_counterexample :
    ∃ st, colectar_xml_pdf_desde_adjuntos c3Input MAX_DEPTH = Except.ok st ∧
      st.xmls = [] ∧ st.warns = ["z0.zip!/z1.zip!/z2.zip!/z3.zip"] ∧ st.errs = [] :=
  ⟨⟨[], [], ["z0.zip!/z1.zip!/z2.zip!/z3.zip"], [], 34⟩, rfl, rfl, rfl, rfl⟩

/-- C3 (corrected).  A container encountered at depth *strictly below*
`max_depth` is expanded (its entries join the queue and traversal
continues); a container at depth ≥ `max_depth` — i.e. one nested one
level deeper than the last expanded level — is skipped with a warning,
and the skip prunes only that branch: the loop proceeds with the
remaining queue and never aborts the batch. -/
theorem C3_depth_pruning :
    (∀ (maxDepth : Nat) (name : String) (b : Blob) (depth : Nat)
        (rest : List (String × Blob × Nat)) (st : CollectSt),
      isArchive name = true → maxDepth ≤ depth →
      collectLoop maxDepth ((name, b, depth) :: rest) st =
        collectLoop maxDepth rest { st with warns := st.warns ++ [name] }) ∧
    (∀ (maxDepth : Nat) (name : String) (sz : Nat) (es : Entries) (depth : Nat)
        (rest : List (String × Blob × Nat)) (st : CollectSt),
      isArchive name = true → depth < maxDepth →
      collectLoop maxDepth ((name, Blob.packed sz es, depth) :: rest) st =
        collectLoop maxDepth (rest ++ (expandEntries name depth es st.total).2.1)
          { st with total := (expandEntries name depth es st.total).1
                    errs := if (expandEntries name depth es st.total).2.2 then st.errs
                            else st.errs ++ [name] }) :=
  ⟨fun maxDepth name b depth rest st harc hdep =>
      collectLoop_skip maxDepth name b depth rest st harc hdep,
   fun maxDepth name sz es depth rest st harc hdep =>
      collectLoop_expand maxDepth name sz es depth rest st harc hdep⟩

/-- C3 witness: both pruning and expansion equations at concrete
inputs — a raw-bytes archive at depth 3 is skipped with a warning, and a
one-entry zip at depth 2 is expanded. -/
theorem C3_depth_pruning_witness :
    (collectLoop 3 [("deep.zip", Blob.raw 7, 3)] ⟨[], [], [], [], 0⟩ =
      collectLoop 3 [] ⟨[], [], ["deep.zip"], [], 0⟩) ∧
    (collectLoop 3 [("ok.zip", Blob.packed 5 (Entries.cons "x.xml" (Blob.raw 2) Entries.nil), 2)]
        ⟨[], [], [], [], 5⟩ =
      collectLoop 3
        ((expandEntries "ok.zip" 2 (Entries.cons "x.xml" (Blob.raw 2) Entries.nil) 5).2.1)
        ⟨[], [], [], [],
          (expandEntries "ok.zip" 2 (Entries.cons "x.xml" (Blob.raw 2) Entries.nil) 5).1⟩) := by
  constructor
  · exact C3_depth_pruning.1 3 "deep.zip" (Blob.raw 7) 3 [] ⟨[], [], [], [], 0⟩ rfl (by decide)
  · have h := C3_depth_pruning.2 3 "ok.zip" 5 (Entries.cons "x.xml" (Blob.raw 2) Entries.nil)
      2 [] ⟨[], [], [], [], 5⟩ rfl (by decide)
    simpa using h

/-- C6 counterexample.  A workbook whose single sheet lacks the required
vocabulary is *not* passed through unvalidated: `validar_confirming_excel`
falls back to that first sheet, runs the row loop on it, and produces
row-validation errors (here six of them for row 2); no
missing-required-columns flag exists in the output. -/
theorem C6_missing_columns_counterexample :
    ∃ o, validar_confirming_excel c6Workbook Option.none = Except.ok o ∧
      o.hoja = "Hoja1" ∧
      o.errores = [(2, "RUC inválido (11 dígitos); Razón Social vacía; Fecha inválida; Moneda inválida (PEN/USD); Monto inválido; CCI inválido (20 dígitos)")] ∧
      o.validos = [] :=
  ⟨_, rfl, rfl, by decide, rfl⟩

/-- C6 (corrected).  When no sheet of the workbook contains the full
required-column vocabulary, the validator selects the *first* sheet and
runs the complete per-row validation pipeline on it (`processSheet`) —
the sheet is not flagged and not passed through unvalidated; the batch
continues through the normal path. -/
theorem C6_fallback_first_sheet :
    ∀ (wb : Workbook) (idx : Option RucIndex) (s0 : Sheet) (rest : List Sheet),
      wb = s0 :: rest →
      (∀ s ∈ wb, (requiredCols.all fun c => s.cols.contains c) = false) →
      validar_confirming_excel wb idx = processSheet idx s0 := by
  intro wb idx s0 rest hwb hall
  have hfind : wb.find? (fun s => requiredCols.all fun c => s.cols.contains c) = none :=
    List.find?_eq_none.mpr (by
      intro s hs
      rw [hall s hs]
      simp)
  subst hwb
  unfold validar_confirming_excel chooseSheet
  rw [hfind]
  rfl

/-- C6 witness: the corrected behaviour at the concrete workbook of the
counterexample. -/
theorem C6_fallback_first_sheet_witness :
    validar_confirming_excel c6Workbook Option.none =
      processSheet Option.none ⟨"Hoja1", ["Documento"], [[("Documento", Cell.str "F001-1")]]⟩ :=
  C6_fallback_first_sheet c6Workbook Option.none
    ⟨"Hoja1", ["Documento"], [[("Documento", Cell.str "F001-1")]]⟩ [] rfl (by decide)

/-- C8 counterexample.  `validar_ruc` accepts a value that is not
digits-only: `limpiar_numero` strips the trailing letter and the
remaining 11 digits pass, where the claim demands rejection of any value
containing non-digit characters. -/
theorem C8_ruc_counterexample :
    validar_ruc (Cell.str "12345678901X") = true ∧
      ("12345678901X".data.all Char.isDigit) = false := by
  exact ⟨by decide, by decide⟩

/-- C8 (corrected).  The row-level RUC validator accepts a value iff the
string obtained by deleting every non-digit character has length exactly
11; on digits-only strings this coincides with the claim (length-11
check), and the two concrete examples hold — but a value containing
non-digit characters may still be accepted. -/
theorem C8_ruc_digits :
    (∀ c, validar_ruc c = true ↔ (limpiar_numero c).length = 11) ∧
    (∀ s : String, s.data.all Char.isDigit = true →
      (validar_ruc (Cell.str s) = true ↔ s.length = 11)) ∧
    validar_ruc (Cell.str "1234567890") = false ∧
    validar_ruc (Cell.str "12345678901") = true := by
  refine ⟨?_, ?_, by decide, by decide⟩
  · intro c
    simp [validar_ruc]
  · intro s hs
    have hdig : digitsOnly s.data = s.data := by
      apply List.filter_eq_self.mpr
      intro a ha
      exact (List.all_eq_true.mp hs) a ha
    simp only [validar_ruc, limpiar_numero, limpiar_numero_str, pyStr, hdig, beq_iff_eq]
    try rw [string_eta]

/-- C8 witness: the digits-only direction applied at the passing
example. -/
theorem C8_ruc_digits_witness : validar_ruc (Cell.str "12345678901") = true :=
  (C8_ruc_digits.2.1 "12345678901" (by decide)).mpr (by decide)

/-- C9 counterexample.  `validar_cci` accepts a value that is not
digits-only (a hyphen among 20 digits): `limpiar_numero` strips the
hyphen before counting, where the claim demands digits-only of length
20. -/
theorem C9_cci_counterexample :
    validar_cci (Cell.str "1234567890123456789-0") = true ∧
      ("1234567890123456789-0".data.all Char.isDigit) = false := by
  exact ⟨by decide, by decide⟩

/-- C9 (corrected).  The account-number rule is bank-conditional exactly
as claimed: unconstrained for OTRO; for BCP (length 13/14) and BBVA
(length 18) the value must be present and digits-only *after* trimming
and dropping leading apostrophes (`str(cta).strip().lstrip("'")`).  The
CCI rule, however, is not digits-only: a value is accepted iff deleting
every non-digit leaves exactly 20 digits; a "CCI inválido (20 dígitos)"
error is recorded for every row failing that check. -/
theorem C9_account_cci :
    (∀ c, validar_cta_bancaria c "OTRO" = true) ∧
    (∀ c, validar_cta_bancaria c "BCP" = true ↔
      (c ≠ Cell.none ∧ pyStrip (pyStr c) ≠ "" ∧ pyIsDigit (ctaClean c) = true ∧
        ((ctaClean c).length = 13 ∨ (ctaClean c).length = 14))) ∧
    (∀ c, validar_cta_bancaria c "BBVA" = true ↔
      (c ≠ Cell.none ∧ pyStrip (pyStr c) ≠ "" ∧ pyIsDigit (ctaClean c) = true ∧
        (ctaClean c).length = 18)) ∧
    (∀ c, validar_cci c = true ↔ (limpiar_numero c).length = 20) ∧
    (∀ (idx : Option RucIndex) (r : Row), validar_cci (rowGet r "CCI") = false →
      "CCI inválido (20 dígitos)" ∈ filaErrores idx r) := by
  refine ⟨?_, ?_, ?_, ?_, ?_⟩
  · intro c
    simp [validar_cta_bancaria]
  · intro c
    by_cases h0 : c = Cell.none
    · subst h0
      simp [validar_cta_bancaria]
    · have h0b : (c == Cell.none) = false := beq_eq_false_iff_ne.mpr h0
      by_cases h1 : pyStrip (pyStr c) = ""
      · simp [validar_cta_bancaria, h0b, h1]
      · have h1b : (pyStrip (pyStr c) == "") = false := beq_eq_false_iff_ne.mpr h1
        by_cases h2 : pyIsDigit (ctaClean c) = true
        · simp [validar_cta_bancaria, h0b, h1b, h2, h0, h1, beq_iff_eq]
        · have h2b : pyIsDigit (ctaClean c) = false := by rwa [Bool.not_eq_true] at h2
          simp [validar_cta_bancaria, h0b, h1b, h2b, h2]
  · intro c
    by_cases h0 : c = Cell.none
    · subst h0
      simp [validar_cta_bancaria]
    · have h0b : (c == Cell.none) = false := beq_eq_false_iff_ne.mpr h0
      by_cases h1 : pyStrip (pyStr c) = ""
      · simp [validar_cta_bancaria, h0b, h1]
      · have h1b : (pyStrip (pyStr c) == "") = false := beq_eq_false_iff_ne.mpr h1
        by_cases h2 : pyIsDigit (ctaClean c) = true
        · simp [validar_cta_bancaria, h0b, h1b, h2, h0, h1, beq_iff_eq]
        · have h2b : pyIsDigit (ctaClean c) = false := by rwa [Bool.not_eq_true] at h2
          simp [validar_cta_bancaria, h0b, h1b, h2b, h2]
  · intro c
    simp [validar_cci]
  · intro idx r h
    simp [filaErrores, h, List.mem_append]

/-- C9 witness: a row whose CCI has only three digits gets the CCI error
recorded. -/
theorem C9_account_cci_witness :
    "CCI inválido (20 dígitos)" ∈ filaErrores Option.none [("CCI", Cell.str "123")] :=
  C9_account_cci.2.2.2.2 Option.none [("CCI", Cell.str "123")] (by decide)

theorem metaPost_ruc (m : Meta) : (metaPost m).ruc = m.ruc := by
  rcases h : m.serie with _ | s
  · simp [metaPost, h]
  · simp only [metaPost, h]
    split <;> rfl

theorem metaPost_tipo (m : Meta) : (metaPost m).tipo = m.tipo := by
  rcases h : m.serie with _ | s
  · simp [metaPost, h]
  · simp only [metaPost, h]
    split <;> rfl

theorem metaPost_id_full (m : Meta) : (metaPost m).id_full = m.id_full := by
  rcases h : m.serie with _ | s
  · simp [metaPost, h]
  · simp only [metaPost, h]
    split <;> rfl

theorem metaPost_corr (m : Meta) : (metaPost m).corr = m.corr := by
  rcases h : m.serie with _ | s
  · simp [metaPost, h]
  · simp only [metaPost, h]
    split <;> rfl

theorem metaPost_serie_none (m : Meta) (h : m.serie = Option.none) :
    (metaPost m).serie = Option.none := by
  simp [metaPost, h]

/-- C7 (confirmed).  `_extract_xml_meta` never raises in the model: on a
structural-parse failure its result is exactly the regex fallback over
the raw decoded text (the same three signals: the `<cbc:ID>` shape, the
`schemeID="6"` RUC, and the document-type code), and every signal whose
scan finds nothing is simply absent (`none`) in the returned record. -/
theorem C7_extractor_fallback :
    (∀ raw : String,
      extract_xml_meta (XmlBytes.malformed raw) = metaPost (metaFallback raw)) ∧
    (∀ raw : String, searchCbcId raw.data = Option.none →
      (extract_xml_meta (XmlBytes.malformed raw)).id_full = Option.none ∧
      (extract_xml_meta (XmlBytes.malformed raw)).serie = Option.none ∧
      (extract_xml_meta (XmlBytes.malformed raw)).corr = Option.none) ∧
    (∀ raw : String, searchScheme6 raw.data = Option.none →
      (extract_xml_meta (XmlBytes.malformed raw)).ruc = Option.none) ∧
    (∀ raw : String, searchTypeCode raw.data = Option.none →
      (extract_xml_meta (XmlBytes.malformed raw)).tipo = Option.none) := by
  refine ⟨fun raw => rfl, ?_, ?_, ?_⟩
  · intro raw h
    have hfb : (metaFallback raw).id_full = Option.none ∧
        (metaFallback raw).serie = Option.none ∧ (metaFallback raw).corr = Option.none := by
      simp [metaFallback, h]
    refine ⟨?_, ?_, ?_⟩
    · show (metaPost (metaFallback raw)).id_full = Option.none
      rw [metaPost_id_full]
      exact hfb.1
    · show (metaPost (metaFallback raw)).serie = Option.none
      exact metaPost_serie_none _ hfb.2.1
    · show (metaPost (metaFallback raw)).corr = Option.none
      rw [metaPost_corr]
      exact hfb.2.2
  · intro raw h
    show (metaPost (metaFallback raw)).ruc = Option.none
    rw [metaPost_ruc]
    simp [metaFallback, h]
  · intro raw h
    show (metaPost (metaFallback raw)).tipo = Option.none
    rw [metaPost_tipo]
    simp [metaFallback, h]

/-- C7 witness: text with none of the three signals yields an
all-absent record. -/
theorem C7_extractor_fallback_witness :
    (extract_xml_meta (XmlBytes.malformed "hello")).id_full = Option.none ∧
    (extract_xml_meta (XmlBytes.malformed "hello")).serie = Option.none ∧
    (extract_xml_meta (XmlBytes.malformed "hello")).corr = Option.none ∧
    (extract_xml_meta (XmlBytes.malformed "hello")).ruc = Option.none ∧
    (extract_xml_meta (XmlBytes.malformed "hello")).tipo = Option.none := by
  obtain ⟨h1, h2, h3⟩ := C7_extractor_fallback.2.1 "hello" (by decide)
  exact ⟨h1, h2, h3,
    C7_extractor_fallback.2.2.1 "hello" (by decide),
    C7_extractor_fallback.2.2.2 "hello" (by decide)⟩

theorem extraerId_eq_precedence (root : XmlNode) : extraerId root = idPrecedence root := by
  rcases hd : idFromDocRefs root with _ | v1
  · rcases hr : idFromRoot root with _ | v2
    · simp [extraerId, idPrecedence, hd, hr, truthyO]
    · have hne : v2 ≠ "" := by
        obtain ⟨c, hc, hv⟩ := idFromRoot_shape hr
        exact hv ▸ es_id_pyStrip_ne hc
      simp [extraerId, idPrecedence, hd, hr, truthyO, bne_iff_ne, hne]
  · have hne : v1 ≠ "" := by
      obtain ⟨c, hc, hv⟩ := idFromDocRefs_shape hd
      exact hv ▸ es_id_pyStrip_ne hc
    simp [extraerId, idPrecedence, hd, truthyO, bne_iff_ne, hne]

/-- C4 counterexample.  The shape predicate accepts `" F001-1"` (it
strips surrounding whitespace before testing), while the claim's
characterisation — exactly one hyphen *and* a match of the anchored
regex on the string itself — rejects it, since the anchored regex fails
on the leading space. -/
theorem C4_shape_counterexample :
    es_id_factura " F001-1" = true ∧ matchesIdRegex " F001-1".data = false := by
  exact ⟨by decide, by decide⟩

/-- C4 (corrected).  The id is resolved by the claimed precedence —
document-reference pass, else root id, else first id anywhere — and the
shape predicate accepts a string iff it is non-empty and its
*whitespace-trimmed* value contains exactly one hyphen and matches
`^[A-Za-z0-9]{1,4}-[0-9A-Za-z]+$`; the three concrete examples hold as
claimed. -/
theorem C4_id_resolution :
    (∀ (root : XmlNode) (raw : String),
      (extraer_datos_xml_bytes (XmlBytes.wellFormed root raw)).id_factura = idPrecedence root) ∧
    (∀ s : String, es_id_factura s = true ↔
      (s ≠ "" ∧ countChar '-' (stripChars s.data) = 1 ∧
        matchesIdRegex (stripChars s.data) = true)) ∧
    es_id_factura "F001-00005905" = true ∧
    es_id_factura "F00100005905" = false ∧
    es_id_factura "F-0-01" = false := by
  refine ⟨?_, ?_, by decide, by decide, by decide⟩
  · intro root raw
    rw [extraer_wf_id]
    exact extraerId_eq_precedence root
  · intro s
    constructor
    · intro h
      exact es_id_factura_parts h
    · rintro ⟨h1, h2, h3⟩
      have hb : (s == "") = false := beq_eq_false_iff_ne.mpr h1
      simp [es_id_factura, hb, h2, h3]

/-- C10 (confirmed).  Whenever the extractor resolves an id, the serie
and numero fields are present, non-empty, and joining them with a hyphen
reconstructs the id exactly (the id has exactly one hyphen and is split
once at it). -/
theorem C10_serie_numero_reconstruct :
    ∀ (x : XmlBytes) (i : String),
      (extraer_datos_xml_bytes x).id_factura = some i →
      ∃ sa nb, (extraer_datos_xml_bytes x).serie = some sa ∧
        (extraer_datos_xml_bytes x).numero = some nb ∧
        sa ≠ "" ∧ nb ≠ "" ∧ sa ++ "-" ++ nb = i := by
  intro x i h
  exact extraer_serie_numero h

/-- C10 witness: the fixture invoice with id `F001-00005905`. -/
theorem C10_serie_numero_reconstruct_witness :
    ∃ sa nb,
      (extraer_datos_xml_bytes (XmlBytes.wellFormed fixtureInvoice "")).serie = some sa ∧
      (extraer_datos_xml_bytes (XmlBytes.wellFormed fixtureInvoice "")).numero = some nb ∧
      sa ≠ "" ∧ nb ≠ "" ∧ sa ++ "-" ++ nb = "F001-00005905" :=
  C10_serie_numero_reconstruct (XmlBytes.wellFormed fixtureInvoice "") "F001-00005905"
    (by decide)
